import Mathlib

/-!
# SupplierShield — formal model of the core analytics pipeline

A shallow embedding of the supply-chain risk analytics code
(`src/network/builder.py`, `src/risk/{config,scorer,propagation,spof_detector}.py`,
`src/simulation/{monte_carlo,sensitivity}.py`, `src/recommendations/engine.py`).

Modelling conventions:
* Python floats are modelled as exact rationals (`ℚ`); `numpy` reductions
  (`np.mean`, `np.clip`, …) become the corresponding exact operations.
* A `networkx.DiGraph` is a list of `(node id, attribute record)` pairs in
  insertion order plus a list of weighted edges in insertion order.  A node's
  attribute dictionary is a record whose fields are all `Option`: `none`
  models an absent dictionary key.
* Python code that can raise (`d[k]` on a missing key) is embedded in the
  `Option` monad; `d.get(k, default)` becomes `Option.getD`.  Note that in
  `d.get('risk_propagated', d['risk_composite'])` Python evaluates the
  default argument eagerly, so the embedding demands `risk_composite`
  to be present even when `risk_propagated` is.
* The pseudo-random stream of `numpy.random` is modelled as an abstract
  draw stream `ℕ → ℚ` together with a cursor; seeding with a fixed seed
  fixes the stream, and every draw advances the cursor by one.
* Pure printing helpers (`_print_*`) have no observable effect and are not
  modelled.
-/

namespace SupplierShield

/-- Attribute record of a graph node.  Every field is optional, mirroring a
`networkx` node-attribute dictionary where any key may be absent.  The first
eleven fields are written by `_add_supplier_nodes`, the next four by
`_add_country_risk_to_nodes`, the `risk_*` fields by the scorer and the
propagator, and `is_spof` by the SPOF detector. -/
structure NodeAttrs where
  name : Option String := none
  tier : Option ℕ := none
  component : Option String := none
  country : Option String := none
  country_code : Option String := none
  region : Option String := none
  contract_value_eur_m : Option ℚ := none
  lead_time_days : Option ℚ := none
  financial_health : Option ℚ := none
  past_disruptions : Option ℚ := none
  has_backup : Option Bool := none
  political_stability : Option ℚ := none
  natural_disaster_freq : Option ℚ := none
  logistics_performance : Option ℚ := none
  trade_restriction_risk : Option ℚ := none
  risk_geopolitical : Option ℚ := none
  risk_natural_disaster : Option ℚ := none
  risk_financial : Option ℚ := none
  risk_logistics : Option ℚ := none
  risk_concentration : Option ℚ := none
  risk_composite : Option ℚ := none
  risk_category : Option String := none
  risk_propagated : Option ℚ := none
  is_spof : Option Bool := none
  deriving DecidableEq, Repr

/-- A `networkx.DiGraph`: nodes with attributes in insertion order, and
directed weighted edges `(source, target, weight)` in insertion order. -/
structure DiGraph where
  nodes : List (String × NodeAttrs) := []
  edges : List (String × String × ℚ) := []
  deriving DecidableEq, Repr

/-- One row of `suppliers.csv` (schema `SUPPLIER_SCHEMA`). -/
structure Supplier where
  id : String
  name : String
  tier : ℕ
  component : String
  country : String
  country_code : String
  region : String
  contract_value_eur_m : ℚ
  lead_time_days : ℚ
  financial_health : ℚ
  past_disruptions : ℚ
  has_backup : Bool
  deriving DecidableEq, Repr

/-- One row of `dependencies.csv` (schema `DEPENDENCY_SCHEMA`). -/
structure Dependency where
  source_id : String
  target_id : String
  dependency_weight : ℚ
  deriving DecidableEq, Repr

/-- One row of `country_risk.csv` (schema `COUNTRY_RISK_SCHEMA`). -/
structure CountryRisk where
  country : String
  country_code : String
  political_stability : ℚ
  natural_disaster_freq : ℚ
  logistics_performance : ℚ
  trade_restriction_risk : ℚ
  deriving DecidableEq, Repr

/-- One row of `product_bom.csv` (schema `PRODUCT_BOM_SCHEMA`); the
supplier ids are a single comma-separated cell, split by the consumers. -/
structure BomRow where
  product_id : String
  product_name : String
  annual_revenue_eur_m : ℚ
  component_supplier_ids : String
  deriving DecidableEq, Repr

/-- Python's `s.split(',')`: split at every comma; the empty string yields
`[""]`.  (`String.splitOn` is not used because its well-founded recursion
does not reduce in the kernel.) -/
def splitComma (s : String) : List String :=
  go s.data [] |>.map (fun l => ⟨l⟩)
where
  go : List Char → List Char → List (List Char)
  | [], acc => [acc.reverse]
  | c :: rest, acc => if c = ',' then acc.reverse :: go rest [] else go rest (c :: acc)

/-- Membership test of the graph's node set (`node in graph.nodes()`). -/
def DiGraph.hasNode (g : DiGraph) (n : String) : Bool :=
  g.nodes.any (fun p => p.1 == n)

/-- The node ids in iteration order (`graph.nodes()`). -/
def DiGraph.nodeIds (g : DiGraph) : List String :=
  g.nodes.map Prod.fst

/-- Attribute record of a node (`graph.nodes[n]`); an id that is not a node
behaves as an empty attribute dictionary (the code only indexes ids obtained
from the graph itself, for which the fallback never fires). -/
def DiGraph.attr (g : DiGraph) (n : String) : NodeAttrs :=
  ((g.nodes.find? (fun p => p.1 == n)).map Prod.snd).getD {}

/-- Keep the first occurrence of every element, in order (the iteration
order of a Python dict built by repeated insertion). -/
def dedupKeepFirst (l : List String) : List String :=
  go [] l
where
  go (seen : List String) : List String → List String
  | [] => []
  | x :: xs => if x ∈ seen then go seen xs else x :: go (x :: seen) xs

/-- `list(graph.predecessors(n))`: distinct sources of edges into `n`,
in first-edge order. -/
def DiGraph.preds (g : DiGraph) (n : String) : List String :=
  dedupKeepFirst ((g.edges.filter (fun e => e.2.1 == n)).map (fun e => e.1))

/-- `list(graph.successors(n))`: distinct targets of edges out of `n`,
in first-edge order. -/
def DiGraph.succs (g : DiGraph) (n : String) : List String :=
  dedupKeepFirst ((g.edges.filter (fun e => e.1 == n)).map (fun e => e.2.1))

/-! ## Graph builder (`src/network/builder.py`) -/

/-- The node attributes written by `_add_supplier_nodes` for one supplier
row (builder.py lines 86-104); the country and `risk_*` keys are not
touched. -/
def setSupplierAttrs (a : NodeAttrs) (s : Supplier) : NodeAttrs :=
  { a with
    name := some s.name
    tier := some s.tier
    component := some s.component
    country := some s.country
    country_code := some s.country_code
    region := some s.region
    contract_value_eur_m := some s.contract_value_eur_m
    lead_time_days := some s.lead_time_days
    financial_health := some s.financial_health
    past_disruptions := some s.past_disruptions
    has_backup := some s.has_backup }

/-- `graph.add_node(id, **attrs)`: a fresh id is appended; an existing id
has the given keys overwritten in place (this is how a duplicate supplier
id silently merges into one node). -/
def addSupplierNode (g : DiGraph) (s : Supplier) : DiGraph :=
  if g.hasNode s.id then
    { g with nodes := g.nodes.map (fun p => if p.1 == s.id then (p.1, setSupplierAttrs p.2 s) else p) }
  else
    { g with nodes := g.nodes ++ [(s.id, setSupplierAttrs {} s)] }

/-- `country_risk_dict.get(code, {})` of `_add_country_risk_to_nodes`:
the dictionary maps each code to its row, a later row overwriting an
earlier one with the same code; a missing code yields no data. -/
def countryLookup (countries : List CountryRisk) (code : String) : Option CountryRisk :=
  (countries.filter (fun c => c.country_code == code)).getLast?

/-- `_add_country_risk_to_nodes` on one node (builder.py lines 123-131):
reads `node['country_code']` (a raise if absent), then updates the node
with the risk fields of its country, or with nothing if the country is
missing from the table — a silent no-op, not an error. -/
def attachCountryRisk (countries : List CountryRisk) (p : String × NodeAttrs) :
    Option (String × NodeAttrs) := do
  let code ← p.2.country_code
  match countryLookup countries code with
  | some c =>
      pure (p.1, { p.2 with
        political_stability := some c.political_stability
        natural_disaster_freq := some c.natural_disaster_freq
        logistics_performance := some c.logistics_performance
        trade_restriction_risk := some c.trade_restriction_risk })
  | none => pure p

/-- `graph.add_edge(source, target, weight)`: `networkx` silently creates
missing endpoints as nodes with an empty attribute dictionary, then records
the edge. -/
def addEdge (g : DiGraph) (s t : String) (w : ℚ) : DiGraph :=
  let ns1 := if g.nodes.any (fun p => p.1 == s) then g.nodes else g.nodes ++ [(s, ({} : NodeAttrs))]
  let ns2 := if ns1.any (fun p => p.1 == t) then ns1 else ns1 ++ [(t, ({} : NodeAttrs))]
  { nodes := ns2, edges := g.edges ++ [(s, t, w)] }

/-- `_print_network_stats` (builder.py lines 153-174): the tier-count loop
reads `graph.nodes[n]['tier']` for every node — a `KeyError` when a node
lacks the key, as a dangling endpoint created by `add_edge` does — and the
average-degree lines divide by `number_of_nodes()` — a `ZeroDivisionError`
when the graph has no nodes.  Only these two failure paths are observable;
the printed text itself is not. -/
def printNetworkStats (g : DiGraph) : Option Unit := do
  let _ ← g.nodes.mapM (fun p => p.2.tier)
  if g.nodes.isEmpty then none else pure ()

/-- `SupplierNetworkBuilder.build_graph` (builder.py lines 55-80): add all
supplier rows as nodes, attach country risk data, add all dependency
edges, then compute the network statistics (whose per-node `['tier']` reads
and per-node-count division can raise).  No validation of any kind is
performed. -/
def build_graph (suppliers : List Supplier) (deps : List Dependency)
    (countries : List CountryRisk) : Option DiGraph := do
  let g1 := suppliers.foldl addSupplierNode {}
  let nodes2 ← g1.nodes.mapM (attachCountryRisk countries)
  let g2 : DiGraph := { g1 with nodes := nodes2 }
  let g3 := deps.foldl (fun g d => addEdge g d.source_id d.target_id d.dependency_weight) g2
  let _ ← printNetworkStats g3
  pure g3

/-! ## Reachability (`nx.descendants`, `nx.has_path`) -/

/-- One breadth step: all targets of edges out of the visited set that are
not yet visited. -/
def DiGraph.reachAux (g : DiGraph) : ℕ → List String → List String
  | 0, visited => visited
  | k + 1, visited =>
      let frontier := dedupKeepFirst
        (((visited.flatMap g.succs).filter (fun x => ¬ visited.contains x)))
      if frontier.isEmpty then visited
      else g.reachAux k (visited ++ frontier)

/-- All nodes reachable from `n` along directed edges, `n` included.
`g.edges.length + 1` steps always reach the fixpoint. -/
def DiGraph.reachableFrom (g : DiGraph) (n : String) : List String :=
  g.reachAux (g.edges.length + 1) [n]

/-- `nx.has_path(g, s, t)` (true when `s = t`). -/
def DiGraph.hasPath (g : DiGraph) (s t : String) : Bool :=
  (g.reachableFrom s).contains t

/-- `nx.descendants(g, n)` as a canonically ordered list: every node of the
graph, other than `n`, that is reachable from `n`.  (The Python value is a
set; all its uses below — sums, counts, membership — are enumeration-order
independent.) -/
def DiGraph.descendants (g : DiGraph) (n : String) : List String :=
  (g.nodeIds).filter (fun m => (!(m == n)) && g.hasPath n m)

/-! ## Risk scoring (`src/risk/config.py`, `src/risk/scorer.py`) -/

/-- Round-half-even to an integer (the rounding of Python's builtin
`round` in exact arithmetic). -/
def roundHalfEven (q : ℚ) : ℤ :=
  let f := ⌊q⌋
  let frac := q - f
  if frac < 1/2 then f
  else if 1/2 < frac then f + 1
  else if f % 2 = 0 then f else f + 1

/-- Python's `round(x, 2)` in exact arithmetic. -/
def round2 (q : ℚ) : ℚ := (roundHalfEven (q * 100) : ℚ) / 100

/-- `np.clip(x, 0, 100)`. -/
def clip0100 (q : ℚ) : ℚ := min 100 (max 0 q)

/-- `get_risk_category` (config.py lines 32-49). -/
def get_risk_category (score : ℚ) : String :=
  if score ≤ 34 then "LOW"
  else if score ≤ 54 then "MEDIUM"
  else if score ≤ 74 then "HIGH"
  else "CRITICAL"

/-- `_calculate_geopolitical_risk`: `node.get('political_stability', 50)`. -/
def geopolitical_risk (a : NodeAttrs) : ℚ := a.political_stability.getD 50

/-- `_calculate_natural_disaster_risk`: `node.get('natural_disaster_freq', 50)`. -/
def natural_disaster_risk (a : NodeAttrs) : ℚ := a.natural_disaster_freq.getD 50

/-- `_calculate_financial_risk`: `100 - node.get('financial_health', 50)`. -/
def financial_risk (a : NodeAttrs) : ℚ := 100 - a.financial_health.getD 50

/-- `_calculate_logistics_risk`: `100 - node.get('logistics_performance', 50)`. -/
def logistics_risk (a : NodeAttrs) : ℚ := 100 - a.logistics_performance.getD 50

/-- `_calculate_concentration_risk` (scorer.py lines 175-212), with the
constants of `CONCENTRATION_THRESHOLDS`; reads `node['tier']` directly, a
raise when the key is absent. -/
def concentration_risk (g : DiGraph) (n : String) : Option ℚ := do
  let numSuppliers := (g.preds n).length
  let tier ← (g.attr n).tier
  if numSuppliers ≤ 1 then
    if tier = 1 then pure 75 else pure 60
  else
    pure (max 10 (60 - (numSuppliers : ℚ) * 15))

/-- The per-supplier risk record stored by `calculate_all_risks`. -/
structure ScoreRec where
  geopolitical : ℚ
  natural_disaster : ℚ
  financial : ℚ
  logistics : ℚ
  concentration : ℚ
  composite : ℚ
  category : String
  deriving DecidableEq, Repr

/-- The body of `calculate_all_risks` for one node (scorer.py lines 67-99):
five dimensions, the `RISK_WEIGHTS` blend {.30, .20, .20, .15, .15},
clamping to [0, 100], category from the unrounded composite, and storage
rounded to two decimals. -/
def calculate_node_risk (g : DiGraph) (n : String) : Option ScoreRec := do
  let a := g.attr n
  let geo := geopolitical_risk a
  let dis := natural_disaster_risk a
  let fin := financial_risk a
  let log := logistics_risk a
  let conc ← concentration_risk g n
  let composite := clip0100
    (geo * (30/100) + dis * (20/100) + fin * (20/100) + log * (15/100) + conc * (15/100))
  pure {
    geopolitical := round2 geo
    natural_disaster := round2 dis
    financial := round2 fin
    logistics := round2 log
    concentration := round2 conc
    composite := round2 composite
    category := get_risk_category composite }

/-! ## Risk propagation (`src/risk/propagation.py`) -/

/-- Insert-or-update of the `propagated_risks` dict (keys keep their first
position, assignment overwrites the value). -/
def insertRisk (risks : List (String × ℚ)) (n : String) (v : ℚ) : List (String × ℚ) :=
  if risks.any (fun p => p.1 == n) then
    risks.map (fun p => if p.1 == n then (p.1, v) else p)
  else risks ++ [(n, v)]

/-- `[n for n in graph.nodes() if graph.nodes[n]['tier'] == t]`: evaluating
the predicate reads `['tier']` of every node, so one missing tier key is a
raise. -/
def tierListM (g : DiGraph) (t : ℕ) : Option (List String) :=
  go g.nodes
where
  go : List (String × NodeAttrs) → Option (List String)
  | [] => pure []
  | p :: ps => do
      let tr ← p.2.tier
      let rest ← go ps
      pure (if tr = t then p.1 :: rest else rest)

/-- `_propagate_node_risk` (propagation.py lines 80-114): the node's own
`risk_composite`, and when it has upstream suppliers the blend
`max(own, own*0.6 + mean(upstream propagated)*0.4)`; looking up an upstream
id that is not yet in the dict is a raise. -/
def propagate_node_risk (g : DiGraph) (risks : List (String × ℚ)) (n : String) : Option ℚ := do
  let own ← (g.attr n).risk_composite
  let upstream := g.preds n
  if upstream.isEmpty then pure own
  else do
    let upstreamRisks ← upstream.mapM (fun u => risks.lookup u)
    let avg := upstreamRisks.sum / (upstreamRisks.length : ℚ)
    pure (max own (own * (6/10) + avg * (4/10)))

/-- `propagate_all_risks` (propagation.py lines 34-78): tier-3 nodes get
their composite, then tier-2 and tier-1 nodes are processed in that order
through `_propagate_node_risk`; the returned dict maps each supplier id to
its propagated risk. -/
def propagate_all_risks (g : DiGraph) : Option (List (String × ℚ)) := do
  let tier1 ← tierListM g 1
  let tier2 ← tierListM g 2
  let tier3 ← tierListM g 3
  let r3 ← tier3.foldlM (fun acc n => do
    let c ← (g.attr n).risk_composite
    pure (insertRisk acc n c)) []
  let r2 ← tier2.foldlM (fun acc n => do
    let v ← propagate_node_risk g acc n
    pure (insertRisk acc n v)) r3
  let r1 ← tier1.foldlM (fun acc n => do
    let v ← propagate_node_risk g acc n
    pure (insertRisk acc n v)) r2
  pure r1

/-! ## SPOF detection (`src/risk/spof_detector.py`) -/

/-- `node.get('risk_propagated', node['risk_composite'])`: Python evaluates
the default argument first, so `risk_composite` must be present; then the
propagated value is preferred when set. -/
def getPropagatedRisk (a : NodeAttrs) : Option ℚ := do
  let c ← a.risk_composite
  pure (a.risk_propagated.getD c)

/-- The reason returned by `_check_spof_conditions`, with the data that the
code interpolates into its reason string. -/
inductive SpofReason where
  | highRisk (propagated : ℚ)
  | soleSupplier (target : String) (targetTier : ℕ)
  | disconnect
  deriving DecidableEq, Repr

/-- The loop over `downstream` in `_check_spof_conditions` (spof_detector.py
lines 102-110): the first downstream node whose predecessor list has length
one, together with its tier (read directly, a raise if absent). -/
def findSoleFed (g : DiGraph) : List String → Option (Option (String × ℕ))
  | [] => pure none
  | t :: ts =>
      if (g.preds t).length = 1 then do
        let tt ← (g.attr t).tier
        pure (some (t, tt))
      else findSoleFed g ts

/-- `graph.copy()` followed by `remove_node(n)`: drop the node and all its
incident edges. -/
def removeNode (g : DiGraph) (n : String) : DiGraph :=
  { nodes := g.nodes.filter (fun p => ¬ (p.1 == n))
    edges := g.edges.filter (fun e => ¬ (e.1 == n) && ¬ (e.2.1 == n)) }

/-- `_would_disconnect_network` (spof_detector.py lines 118-146): remove the
node, collect the remaining tier-1 and tier-3 nodes, answer `False` when
either list is empty, otherwise `True` exactly when no tier-3 → tier-1 path
remains. -/
def would_disconnect_network (g : DiGraph) (n : String) : Option Bool := do
  let tg := removeNode g n
  let tier1 ← tierListM tg 1
  let tier3 ← tierListM tg 3
  if tier1.isEmpty || tier3.isEmpty then pure false
  else pure (!(tier3.any (fun a => tier1.any (fun b => tg.hasPath a b))))

/-- `_check_spof_conditions` (spof_detector.py lines 81-116): condition (1)
propagated risk above 60; else condition (2) sole supplier of some
downstream node; else condition (3) removal disconnects every remaining
tier-3 → tier-1 path; else not a SPOF (`none`). -/
def check_spof_conditions (g : DiGraph) (n : String) : Option (Option SpofReason) := do
  let pr ← getPropagatedRisk (g.attr n)
  if 60 < pr then pure (some (.highRisk pr))
  else do
    match ← findSoleFed g (g.succs n) with
    | some (t, tt) => pure (some (.soleSupplier t tt))
    | none => do
        let disc ← would_disconnect_network g n
        if disc then pure (some .disconnect) else pure none

/-- `detect_all_spofs` (spof_detector.py lines 35-79) followed by
`_add_spof_flags_to_graph` (lines 148-156): nodes whose
`get('has_backup', False)` is false and whose condition check fires are
collected in order, and every node's `is_spof` attribute is set to its
membership in that list.  Returns the flagged graph and the SPOF list. -/
def detect_all_spofs (g : DiGraph) : Option (DiGraph × List String) := do
  let spofs ← g.nodes.foldlM (fun acc p => do
    if p.2.has_backup.getD false then pure acc
    else do
      let r ← check_spof_conditions g p.1
      pure (if r.isSome then acc ++ [p.1] else acc)) []
  let flagged : DiGraph :=
    { g with nodes := g.nodes.map (fun p => (p.1, { p.2 with is_spof := some (spofs.contains p.1) })) }
  pure (flagged, spofs)

/-! ## Monte Carlo simulation (`src/simulation/monte_carlo.py`) -/

/-- The state of the `numpy` global random generator: the (seed-determined)
stream of uniform [0,1) draws and a cursor.  `np.random.seed(s)` fixes the
stream and resets the cursor; each draw advances the cursor by one. -/
structure RngState where
  draws : ℕ → ℚ
  idx : ℕ

/-- `np.random.random()`. -/
def nextDraw (r : RngState) : ℚ × RngState :=
  (r.draws r.idx, { r with idx := r.idx + 1 })

/-- `np.random.uniform(lo, hi)` = `lo + (hi - lo) * draw`. -/
def uniformDraw (lo hi : ℚ) (r : RngState) : ℚ × RngState :=
  let (u, r') := nextDraw r
  (lo + (hi - lo) * u, r')

/-- One value of the `product_supplier_map` dict: product id, name, annual
revenue and the supplier-id list obtained by `split(',')`. -/
structure ProductEntry where
  product_id : String
  name : String
  revenue : ℚ
  suppliers : List String
  deriving DecidableEq, Repr

/-- `_build_product_supplier_map` (monte_carlo.py lines 48-60, identical in
sensitivity.py lines 39-51): a dict keyed by product id, an id keeping its
first position, a repeated id overwriting the stored value. -/
def build_product_supplier_map (bom : List BomRow) : List ProductEntry :=
  bom.foldl (fun m p =>
    let entry : ProductEntry :=
      ⟨p.product_id, p.product_name, p.annual_revenue_eur_m, splitComma p.component_supplier_ids⟩
    if m.any (fun e => e.product_id == p.product_id) then
      m.map (fun e => if e.product_id == p.product_id then entry else e)
    else m ++ [entry]) []

/-- The per-candidate failure probability of `_run_single_iteration`
(monte_carlo.py lines 216-220): `base_probability = risk / 100`,
`duration_factor = min(duration / 30, 1.5)`, and
`min(base_probability * duration_factor, 0.95)`. -/
def failure_probability (propagated_risk duration_days : ℚ) : ℚ :=
  let base_probability := propagated_risk / 100
  let duration_factor := min (duration_days / 30) (3/2)
  min (base_probability * duration_factor) (19/20)

/-- `_calculate_revenue_impact` (monte_carlo.py lines 232-261): for every
product (in dict order) depending on at least one failed supplier, draw a
uniform(0.1, 0.5) loss fraction and add `revenue * fraction`. -/
def calculate_revenue_impact (pmap : List ProductEntry) (failed : List String)
    (r : RngState) : ℚ × RngState :=
  pmap.foldl (fun (st : ℚ × RngState) e =>
    if failed.any (fun f => e.suppliers.contains f) then
      let (frac, r') := uniformDraw (1/10) (1/2) st.2
      (st.1 + e.revenue * frac, r')
    else st) (0, r)

/-- `_run_single_iteration` (monte_carlo.py lines 189-230).  `order` is the
CPython iteration order of the `affected_suppliers` set — some permutation
of its elements, fixed by string hashing rather than by any simulation
input.  Each candidate present in the graph consumes one draw and fails
when the draw is below its failure probability; a nonempty failed set is
then priced by `_calculate_revenue_impact`. -/
def run_single_iteration (g : DiGraph) (pmap : List ProductEntry)
    (order : List String) (duration_days : ℚ) (r : RngState) :
    Option (ℚ × RngState) := do
  let st ← order.foldlM (fun (st : List String × RngState) sid =>
    if ¬ g.hasNode sid then pure st
    else do
      let pr ← getPropagatedRisk (g.attr sid)
      let p := failure_probability pr duration_days
      let (u, r') := nextDraw st.2
      pure (if u < p then (st.1 ++ [sid], r') else (st.1, r'))) ([], r)
  let (failed, r1) := st
  if failed.isEmpty then pure (0, r1)
  else pure (calculate_revenue_impact pmap failed r1)

/-- `_get_affected_suppliers` (monte_carlo.py lines 139-187).  The Python
value is a set; this embedding returns it as a canonically ordered list
(membership is all that the callers depend on, except for the iteration
order handled by `order` above). -/
def get_affected_suppliers (g : DiGraph) (target : String) (scenKind : String) :
    Option (List String) :=
  if scenKind == "single_node" then
    pure (dedupKeepFirst (target :: (if g.hasNode target then g.descendants target else [])))
  else if scenKind == "regional" then do
    let targetRegion ← (g.attr target).region
    g.nodes.foldrM (fun p acc => do
      let reg ← p.2.region
      pure (if reg == targetRegion then p.1 :: acc else acc)) []
  else if scenKind == "correlated" then do
    let upstream := g.preds target
    pure (dedupKeepFirst
      (target :: (g.nodeIds.filter (fun m => (g.preds m).any (fun u => upstream.contains u)))))
  else pure [target]

/-- Ascending sort of the result sample (the order `np.median` and
`np.percentile` use internally). -/
def sortQ (l : List ℚ) : List ℚ := List.insertionSort (· ≤ ·) l

/-- `np.percentile(a, p)` with the default linear interpolation:
`rank = p/100 * (n-1)`, interpolating between the two neighbouring order
statistics. -/
def percentileLinear (sorted : List ℚ) (p : ℚ) : ℚ :=
  let n := sorted.length
  let rank := p * ((n : ℚ) - 1) / 100
  let lo := ⌊rank⌋.toNat
  let frac := rank - (⌊rank⌋ : ℚ)
  let a := sorted.getD lo 0
  let b := sorted.getD (min (lo + 1) (n - 1)) 0
  a + frac * (b - a)

/-- The summary of `_calculate_statistics` (monte_carlo.py lines 263-286).
`lo`/`hi` are the keys `'min'`/`'max'`; `stdSq` models `'std'` by its
square (the variance): the square root is irrational in general, and two
standard deviations are bit-identical exactly when their squares are. -/
structure SummaryStats where
  mean : ℚ
  median : ℚ
  stdSq : ℚ
  lo : ℚ
  hi : ℚ
  p25 : ℚ
  p75 : ℚ
  p90 : ℚ
  p95 : ℚ
  p99 : ℚ
  deriving DecidableEq, Repr

/-- `_calculate_statistics` over the iteration results. -/
def calculate_statistics (results : List ℚ) : SummaryStats :=
  let n : ℚ := results.length
  let mean := results.sum / n
  let sorted := sortQ results
  { mean := mean
    median := percentileLinear sorted 50
    stdSq := (results.map (fun x => (x - mean) ^ 2)).sum / n
    lo := sorted.headD 0
    hi := sorted.getLastD 0
    p25 := percentileLinear sorted 25
    p75 := percentileLinear sorted 75
    p90 := percentileLinear sorted 90
    p95 := percentileLinear sorted 95
    p99 := percentileLinear sorted 99 }

/-- The dictionary returned by `run_simulation` (the wall-clock `'runtime'`
entry is not modelled). -/
structure SimResult where
  stats : SummaryStats
  target_supplier : String
  duration_days : ℚ
  iterations : ℕ
  scenKind : String
  affected_suppliers_count : ℕ
  affected_products : List String
  all_results : List ℚ
  deriving DecidableEq, Repr

/-- The iteration loop of `run_simulation` (monte_carlo.py lines 100-106). -/
def runIterations (g : DiGraph) (pmap : List ProductEntry) (order : List String)
    (duration_days : ℚ) : ℕ → List ℚ × RngState → Option (List ℚ × RngState)
  | 0, st => pure st
  | k + 1, st => do
      let (impact, r') ← run_single_iteration g pmap order duration_days st.2
      runIterations g pmap order duration_days k (st.1 ++ [impact], r')

/-- `run_simulation` (monte_carlo.py lines 62-137): expand the scenario to
the affected-supplier set, run all iterations against the current RNG
state, and package statistics and metadata.  The RNG is *not* reseeded
here; the advanced state is returned. -/
def run_simulation (g : DiGraph) (pmap : List ProductEntry) (r : RngState)
    (target : String) (duration_days : ℚ) (iterations : ℕ) (scenKind : String)
    (order : List String) : Option (SimResult × RngState) := do
  let affected ← get_affected_suppliers g target scenKind
  let st ← runIterations g pmap order duration_days iterations ([], r)
  let (results, r') := st
  let affectedProducts :=
    (pmap.filter (fun e => e.suppliers.any (fun s => affected.contains s))).map (·.product_id)
  pure ({ stats := calculate_statistics results
          target_supplier := target
          duration_days := duration_days
          iterations := iterations
          scenKind := scenKind
          affected_suppliers_count := affected.length
          affected_products := affectedProducts
          all_results := results }, r')

/-- `MonteCarloSimulator`: the graph and BOM handed to `__init__` plus the
global RNG state. -/
structure MCSimulator where
  graph : DiGraph
  pmap : List ProductEntry
  rng : RngState

/-- `MonteCarloSimulator.__init__` (monte_carlo.py lines 25-46): store the
inputs, seed the RNG — the seed fixes the draw stream and resets the cursor
to zero, once, here — and build the product-supplier map. -/
def MCSimulator.init (g : DiGraph) (bom : List BomRow) (stream : ℕ → ℚ) : MCSimulator :=
  { graph := g, pmap := build_product_supplier_map bom, rng := { draws := stream, idx := 0 } }

/-- A `run_simulation` call on a simulator instance: the RNG continues from
wherever the previous call left it. -/
def MCSimulator.run (sim : MCSimulator) (target : String) (duration_days : ℚ)
    (iterations : ℕ) (scenKind : String) (order : List String) :
    Option (SimResult × MCSimulator) := do
  let (res, r') ← run_simulation sim.graph sim.pmap sim.rng target duration_days
    iterations scenKind order
  pure (res, { sim with rng := r' })

/-! ## Sensitivity analysis (`src/simulation/sensitivity.py`) -/

/-- The exposure dictionary of `_calculate_revenue_exposure`. -/
structure Exposure where
  direct_revenue : ℚ
  indirect_revenue : ℚ
  weighted_indirect : ℚ
  total_exposure : ℚ
  affected_products : ℕ
  downstream_count : ℕ
  deriving DecidableEq, Repr

/-- `_calculate_revenue_exposure` (sensitivity.py lines 111-160).  Direct:
one pass over the product map accumulating the products that list the
supplier and their revenue.  Indirect: for every graph descendant and every
product listing that descendant which is not among the direct products, the
product's revenue is added — once per such (descendant, product) pair.
Total: direct plus half the indirect. -/
def calculate_revenue_exposure (g : DiGraph) (pmap : List ProductEntry)
    (supplier_id : String) : Exposure :=
  let directProducts := (pmap.filter (fun e => e.suppliers.contains supplier_id)).map (·.product_id)
  let directRevenue := ((pmap.filter (fun e => e.suppliers.contains supplier_id)).map (·.revenue)).sum
  let descs := g.descendants supplier_id
  let indirectRevenue := (descs.map (fun d =>
    ((pmap.filter (fun e => e.suppliers.contains d && !(directProducts.contains e.product_id))).map
      (·.revenue)).sum)).sum
  { direct_revenue := directRevenue
    indirect_revenue := indirectRevenue
    weighted_indirect := indirectRevenue * (1/2)
    total_exposure := directRevenue + indirectRevenue * (1/2)
    affected_products := directProducts.length
    downstream_count := descs.length }

/-- One row of the criticality ranking DataFrame
(sensitivity.py lines 84-99). -/
structure RankRow where
  supplier_id : String
  name : String
  tier : ℕ
  country : String
  component : String
  contract_value_eur_m : ℚ
  propagated_risk : ℚ
  risk_category : String
  direct_revenue_exposure : ℚ
  indirect_revenue_exposure : ℚ
  total_revenue_exposure : ℚ
  criticality_score : ℚ
  affected_products : ℕ
  downstream_suppliers : ℕ
  deriving DecidableEq, Repr

/-- The loop body of `calculate_criticality_ranking` for one node
(sensitivity.py lines 69-99): `name`, `tier`, `country`, `component` and
`contract_value_eur_m` are read directly (a raise when absent);
`risk_propagated` falls back to `risk_composite` (whose read is eager);
`risk_category` falls back to `"UNKNOWN"`. -/
def buildRankRow (g : DiGraph) (pmap : List ProductEntry)
    (p : String × NodeAttrs) : Option RankRow := do
  let a := p.2
  let propagated ← getPropagatedRisk a
  let nm ← a.name
  let tr ← a.tier
  let ctry ← a.country
  let comp ← a.component
  let cv ← a.contract_value_eur_m
  let exposure := calculate_revenue_exposure g pmap p.1
  pure { supplier_id := p.1
         name := nm
         tier := tr
         country := ctry
         component := comp
         contract_value_eur_m := cv
         propagated_risk := propagated
         risk_category := a.risk_category.getD "UNKNOWN"
         direct_revenue_exposure := exposure.direct_revenue
         indirect_revenue_exposure := exposure.indirect_revenue
         total_revenue_exposure := exposure.total_exposure
         criticality_score := (propagated / 100) * exposure.total_exposure
         affected_products := exposure.affected_products
         downstream_suppliers := exposure.downstream_count }

instance rankRowLeDec :
    DecidableRel (fun a b : RankRow => a.criticality_score ≤ b.criticality_score) :=
  fun a b => inferInstanceAs (Decidable (a.criticality_score ≤ b.criticality_score))

/-- `df.sort_values('criticality_score', ascending=False)`: pandas computes
an ascending argsort of the column and reverses it (`nargsort`,
pandas/core/sorting.py); for arrays below numpy's introsort threshold the
ascending argsort is a stable (binary-insertion) sort.  So equal keys come
out in *reversed* row order, and no tie-break on any other column exists. -/
def pandasSortDesc (rows : List RankRow) : List RankRow :=
  (List.insertionSort (fun a b : RankRow => a.criticality_score ≤ b.criticality_score) rows).reverse

/-- `calculate_criticality_ranking` (sensitivity.py lines 53-109): one row
per node in graph order, then the pandas descending sort. -/
def calculate_criticality_ranking (g : DiGraph) (pmap : List ProductEntry) :
    Option (List RankRow) := do
  let rows ← g.nodes.mapM (buildRankRow g pmap)
  pure (pandasSortDesc rows)

/-- Running cumulative sums of a list. -/
def cumSums (l : List ℚ) : List ℚ :=
  go 0 l
where
  go (acc : ℚ) : List ℚ → List ℚ
  | [] => []
  | x :: xs => (acc + x) :: go (acc + x) xs

/-- The dictionary of `get_pareto_analysis`
(sensitivity.py lines 352-387). -/
structure ParetoResult where
  total_suppliers : ℕ
  total_criticality : ℚ
  pareto_80_suppliers : ℕ
  pareto_80_percent : ℚ
  pareto_50_suppliers : ℕ
  pareto_50_percent : ℚ
  top_10_criticality : ℚ
  top_10_percent : ℚ
  deriving DecidableEq, Repr

/-- `get_pareto_analysis` (sensitivity.py lines 352-387): on the ranked
rows, cumulative criticality share per row, and the *count of rows whose
cumulative share is ≤ 80 (resp. ≤ 50) percent* — the pandas expression
`(cumulative_percent <= t).sum()`. -/
def get_pareto_analysis (g : DiGraph) (pmap : List ProductEntry) :
    Option ParetoResult := do
  let rows ← calculate_criticality_ranking g pmap
  let scores := rows.map (·.criticality_score)
  let total := scores.sum
  let cumPercents := (cumSums scores).map (fun c => c / total * 100)
  let top10 := ((rows.take 10).map (·.criticality_score)).sum
  pure { total_suppliers := rows.length
         total_criticality := total
         pareto_80_suppliers := cumPercents.countP (fun c => c ≤ 80)
         pareto_80_percent := ((cumPercents.countP (fun c => c ≤ 80) : ℚ) / rows.length) * 100
         pareto_50_suppliers := cumPercents.countP (fun c => c ≤ 50)
         pareto_50_percent := ((cumPercents.countP (fun c => c ≤ 50) : ℚ) / rows.length) * 100
         top_10_criticality := top10
         top_10_percent := top10 / total * 100 }

/-! ## Recommendation engine (`src/recommendations/engine.py`) -/

/-- A recommendation dictionary as built by `_create_recommendation`
(engine.py lines 211-236).  The free-text `action`/`reason` strings are
format-string renderings of fields already present here and are not
modelled separately. -/
structure Recommendation where
  supplier_id : String
  supplier_name : String
  tier : ℕ
  country : String
  component : String
  rule_name : String
  severity : String
  timeline : String
  impact_score : ℚ
  propagated_risk : ℚ
  contract_value : ℚ
  deriving DecidableEq, Repr

/-- `_create_recommendation`: reads `name`, `tier`, `country`, `component`
and `contract_value_eur_m` directly (a raise when absent) and the
propagated risk with the eager composite fallback. -/
def create_recommendation (g : DiGraph) (supplier_id rule_name severity timeline : String)
    (impact_score : ℚ) : Option Recommendation := do
  let a := g.attr supplier_id
  let nm ← a.name
  let tr ← a.tier
  let ctry ← a.country
  let comp ← a.component
  let pr ← getPropagatedRisk a
  let cv ← a.contract_value_eur_m
  pure { supplier_id := supplier_id, supplier_name := nm, tier := tr, country := ctry
         component := comp, rule_name := rule_name, severity := severity
         timeline := timeline, impact_score := impact_score
         propagated_risk := pr, contract_value := cv }

/-- `_generate_supplier_recommendations` (engine.py lines 129-209): the
five independent rules R1–R5, each appending a recommendation when its
condition fires. -/
def generate_supplier_recommendations (g : DiGraph) (p : String × NodeAttrs) :
    Option (List Recommendation) := do
  let a := p.2
  let pr ← getPropagatedRisk a
  let hb := a.has_backup.getD false
  let spof := a.is_spof.getD false
  let fh := a.financial_health.getD 100
  let cv := a.contract_value_eur_m.getD 0
  let r1 ← if 75 ≤ pr ∧ ¬ hb then do
      let rec1 ← create_recommendation g p.1 "R1_CRITICAL_NO_BACKUP" "CRITICAL" "0-30 days" (pr * cv)
      pure [rec1]
    else pure []
  let r2 ← if spof ∧ 55 ≤ pr then do
      let rec2 ← create_recommendation g p.1 "R2_SPOF_HIGH_RISK" "HIGH" "30-60 days" (pr * cv * (3/2))
      pure [rec2]
    else pure []
  let r3 ← if 55 ≤ pr ∧ 2 ≤ cv ∧ ¬ hb then do
      let rec3 ← create_recommendation g p.1 "R3_HIGH_VALUE_NO_BACKUP" "HIGH" "30-60 days" (cv * 10)
      pure [rec3]
    else pure []
  let r4 ← if fh < 35 then do
      let rec4 ← create_recommendation g p.1 "R4_FINANCIAL_HEALTH" "WATCH" "Ongoing" cv
      pure [rec4]
    else pure []
  let r5 ← if 45 ≤ pr ∧ pr < 55 ∧ ¬ hb then do
      let rec5 ← create_recommendation g p.1 "R5_MEDIUM_RISK_NO_BACKUP" "MEDIUM" "60-90 days" pr
      pure [rec5]
    else pure []
  pure (r1 ++ r2 ++ r3 ++ r4 ++ r5)

/-- `_severity_rank` (engine.py lines 124-127). -/
def severity_rank (s : String) : ℕ :=
  if s == "CRITICAL" then 0
  else if s == "HIGH" then 1
  else if s == "MEDIUM" then 2
  else if s == "WATCH" then 3
  else 4

instance recLeDec : DecidableRel (fun a b : Recommendation =>
    severity_rank a.severity < severity_rank b.severity ∨
      (severity_rank a.severity = severity_rank b.severity ∧ b.impact_score ≤ a.impact_score)) :=
  fun _ _ => inferInstanceAs (Decidable (_ ∨ _))

/-- `generate_all_recommendations` (engine.py lines 93-122): per-node rule
evaluation in graph order, then the stable Python sort on the key
`(severity_rank, -impact_score)`. -/
def generate_all_recommendations (g : DiGraph) : Option (List Recommendation) := do
  let recs ← g.nodes.foldlM (fun acc p => do
    let nodeRecs ← generate_supplier_recommendations g p
    pure (acc ++ nodeRecs)) []
  pure (List.insertionSort (fun a b : Recommendation =>
    severity_rank a.severity < severity_rank b.severity ∨
      (severity_rank a.severity = severity_rank b.severity ∧ b.impact_score ≤ a.impact_score)) recs)

/-! ## The pipeline state seen by the later, read-only stages -/

/-- The data shared by the pipeline stages and the caller: the annotated
graph and the product BOM.  The builder/scorer/propagator/detector write it;
the Monte Carlo simulator, the sensitivity analyzer and the recommendation
engine only read it. -/
structure PipelineState where
  graph : DiGraph
  bom : List BomRow
  deriving DecidableEq

/-- `MonteCarloSimulator.run_simulation` as a state transformer on the
shared pipeline data: the translated body (above) contains no write to any
node attribute or BOM entry, so the state component it passes on is the one
it received. -/
def run_simulation_st (st : PipelineState) (r : RngState) (target : String)
    (duration_days : ℚ) (iterations : ℕ) (scenKind : String) (order : List String) :
    PipelineState × Option (SimResult × RngState) :=
  (st, run_simulation st.graph (build_product_supplier_map st.bom) r target
        duration_days iterations scenKind order)

/-- `SensitivityAnalyzer.calculate_criticality_ranking` as a state
transformer on the shared pipeline data. -/
def calculate_criticality_ranking_st (st : PipelineState) :
    PipelineState × Option (List RankRow) :=
  (st, calculate_criticality_ranking st.graph (build_product_supplier_map st.bom))

/-- `RecommendationEngine.generate_all_recommendations` as a state
transformer on the shared pipeline data. -/
def generate_all_recommendations_st (st : PipelineState) :
    PipelineState × Option (List Recommendation) :=
  (st, generate_all_recommendations st.graph)

/-! ## Basic lemmas about the builder -/

lemma addSupplierNode_cc (g : DiGraph) (s : Supplier)
    (h : ∀ p ∈ g.nodes, p.2.country_code.isSome) :
    ∀ p ∈ (addSupplierNode g s).nodes, p.2.country_code.isSome := by
  unfold addSupplierNode
  split
  · intro p hp
    simp only [List.mem_map] at hp
    obtain ⟨q, hq, rfl⟩ := hp
    split
    · simp [setSupplierAttrs]
    · exact h q hq
  · intro p hp
    rcases List.mem_append.mp hp with h1 | h2
    · exact h p h1
    · simp only [List.mem_singleton] at h2
      subst h2
      simp [setSupplierAttrs]

lemma foldl_addSupplierNode_cc (suppliers : List Supplier) :
    ∀ g : DiGraph, (∀ p ∈ g.nodes, p.2.country_code.isSome) →
      ∀ p ∈ (suppliers.foldl addSupplierNode g).nodes, p.2.country_code.isSome := by
  induction suppliers with
  | nil => intro g h; simpa using h
  | cons s ss ih => intro g h; exact ih _ (addSupplierNode_cc g s h)

lemma attachCountryRisk_isSome (countries : List CountryRisk) (p : String × NodeAttrs)
    (h : p.2.country_code.isSome) : (attachCountryRisk countries p).isSome := by
  obtain ⟨code, hc⟩ := Option.isSome_iff_exists.mp h
  unfold attachCountryRisk
  rw [hc]
  cases hcl : countryLookup countries code <;> simp [hcl]

lemma mapM_attach_ok (countries : List CountryRisk) (ns : List (String × NodeAttrs))
    (h : ∀ p ∈ ns, p.2.country_code.isSome) :
    ∃ ns', ns.mapM (attachCountryRisk countries) = some ns' := by
  induction ns with
  | nil => exact ⟨[], rfl⟩
  | cons p ps ih =>
    obtain ⟨q, hq⟩ :=
      Option.isSome_iff_exists.mp (attachCountryRisk_isSome countries p (h p (List.mem_cons_self p ps)))
    obtain ⟨ps', hps⟩ := ih (fun r hr => h r (List.mem_cons_of_mem p hr))
    exact ⟨q :: ps', by rw [List.mapM_cons, hq, hps]; rfl⟩

lemma addEdge_hasNode_mono (g : DiGraph) (s t : String) (w : ℚ) (x : String)
    (h : g.hasNode x = true) : (addEdge g s t w).hasNode x = true := by
  unfold DiGraph.hasNode at *
  unfold addEdge
  dsimp only
  split_ifs <;> simp_all [List.any_append]

lemma addEdge_hasNode_left (g : DiGraph) (s t : String) (w : ℚ) :
    (addEdge g s t w).hasNode s = true := by
  unfold DiGraph.hasNode addEdge
  dsimp only
  split_ifs <;> simp_all [List.any_append]

lemma addEdge_hasNode_right (g : DiGraph) (s t : String) (w : ℚ) :
    (addEdge g s t w).hasNode t = true := by
  unfold DiGraph.hasNode addEdge
  dsimp only
  split_ifs <;> simp_all [List.any_append]

lemma foldl_addEdge_mono (deps : List Dependency) :
    ∀ g : DiGraph, ∀ x, g.hasNode x = true →
      (deps.foldl (fun g d => addEdge g d.source_id d.target_id d.dependency_weight) g).hasNode x
        = true := by
  induction deps with
  | nil => intro g x h; simpa using h
  | cons d ds ih =>
    intro g x h
    exact ih _ x (addEdge_hasNode_mono g _ _ _ x h)

lemma foldl_addEdge_endpoints (deps : List Dependency) :
    ∀ g : DiGraph, ∀ d ∈ deps,
      (deps.foldl (fun g d => addEdge g d.source_id d.target_id d.dependency_weight) g).hasNode
          d.source_id = true ∧
      (deps.foldl (fun g d => addEdge g d.source_id d.target_id d.dependency_weight) g).hasNode
          d.target_id = true := by
  induction deps with
  | nil => intro g d hd; cases hd
  | cons e ds ih =>
    intro g d hd
    rcases List.mem_cons.mp hd with rfl | hd'
    · constructor
      · exact foldl_addEdge_mono ds _ _ (addEdge_hasNode_left g _ _ _)
      · exact foldl_addEdge_mono ds _ _ (addEdge_hasNode_right g _ _ _)
    · exact ih _ d hd'

lemma addSupplierNode_tier (g : DiGraph) (s : Supplier)
    (h : ∀ p ∈ g.nodes, p.2.tier.isSome) :
    ∀ p ∈ (addSupplierNode g s).nodes, p.2.tier.isSome := by
  unfold addSupplierNode
  split
  · intro p hp
    simp only [List.mem_map] at hp
    obtain ⟨q, hq, rfl⟩ := hp
    split
    · simp [setSupplierAttrs]
    · exact h q hq
  · intro p hp
    rcases List.mem_append.mp hp with h1 | h2
    · exact h p h1
    · simp only [List.mem_singleton] at h2
      subst h2
      simp [setSupplierAttrs]

lemma foldl_addSupplierNode_tier (suppliers : List Supplier) :
    ∀ g : DiGraph, (∀ p ∈ g.nodes, p.2.tier.isSome) →
      ∀ p ∈ (suppliers.foldl addSupplierNode g).nodes, p.2.tier.isSome := by
  induction suppliers with
  | nil => intro g h; simpa using h
  | cons s ss ih => intro g h; exact ih _ (addSupplierNode_tier g s h)

lemma attachCountryRisk_fst_tier (countries : List CountryRisk) (p q : String × NodeAttrs)
    (h : attachCountryRisk countries p = some q) : q.1 = p.1 ∧ q.2.tier = p.2.tier := by
  unfold attachCountryRisk at h
  cases hc : p.2.country_code with
  | none => rw [hc] at h; cases h
  | some code =>
    rw [hc] at h
    simp only [Option.bind_eq_bind, Option.some_bind, Option.pure_def] at h
    cases hcl : countryLookup countries code <;> rw [hcl] at h
    · injection h with h'
      subst h'
      exact ⟨rfl, rfl⟩
    · injection h with h'
      subst h'
      exact ⟨rfl, rfl⟩

lemma mapM_attach_ids (countries : List CountryRisk) :
    ∀ (ns ns' : List (String × NodeAttrs)),
      ns.mapM (attachCountryRisk countries) = some ns' →
      ns'.map Prod.fst = ns.map Prod.fst := by
  intro ns
  induction ns with
  | nil =>
    intro ns' h
    simp only [List.mapM_nil, Option.pure_def, Option.some.injEq] at h
    subst h
    rfl
  | cons p ps ih =>
    intro ns' h
    rw [List.mapM_cons] at h
    cases hf : attachCountryRisk countries p with
    | none => rw [hf] at h; cases h
    | some q =>
      rw [hf] at h
      simp only [Option.bind_eq_bind, Option.some_bind, Option.pure_def] at h
      cases hps : ps.mapM (attachCountryRisk countries) with
      | none => rw [hps] at h; cases h
      | some qs =>
        rw [hps] at h
        simp only [Option.some_bind, Option.some.injEq] at h
        subst h
        have h1 := (attachCountryRisk_fst_tier countries p q hf).1
        simp [List.map_cons, h1, ih qs hps]

lemma mapM_attach_tier (countries : List CountryRisk) :
    ∀ (ns ns' : List (String × NodeAttrs)),
      ns.mapM (attachCountryRisk countries) = some ns' →
      (∀ p ∈ ns, p.2.tier.isSome) → ∀ q ∈ ns', q.2.tier.isSome := by
  intro ns
  induction ns with
  | nil =>
    intro ns' h _
    simp only [List.mapM_nil, Option.pure_def, Option.some.injEq] at h
    subst h
    intro q hq
    cases hq
  | cons p ps ih =>
    intro ns' h hall
    rw [List.mapM_cons] at h
    cases hf : attachCountryRisk countries p with
    | none => rw [hf] at h; cases h
    | some q =>
      rw [hf] at h
      simp only [Option.bind_eq_bind, Option.some_bind, Option.pure_def] at h
      cases hps : ps.mapM (attachCountryRisk countries) with
      | none => rw [hps] at h; cases h
      | some qs =>
        rw [hps] at h
        simp only [Option.some_bind, Option.some.injEq] at h
        subst h
        intro r hr
        rcases List.mem_cons.mp hr with rfl | hr'
        · rw [Option.isSome_iff_exists, (attachCountryRisk_fst_tier countries p r hf).2,
            ← Option.isSome_iff_exists]
          exact hall p (List.mem_cons_self p ps)
        · exact ih qs hps (fun r hr => hall r (List.mem_cons_of_mem p hr)) r hr'

lemma mapM_tier_ok (l : List (String × NodeAttrs))
    (h : ∀ p ∈ l, p.2.tier.isSome) :
    ∃ ts, l.mapM (fun p => p.2.tier) = some ts := by
  induction l with
  | nil => exact ⟨[], rfl⟩
  | cons p ps ih =>
    obtain ⟨t, ht⟩ := Option.isSome_iff_exists.mp (h p (List.mem_cons_self p ps))
    obtain ⟨ts, hts⟩ := ih (fun r hr => h r (List.mem_cons_of_mem p hr))
    exact ⟨t :: ts, by rw [List.mapM_cons, ht, hts]; rfl⟩

lemma mapM_tier_none (l : List (String × NodeAttrs)) (p : String × NodeAttrs)
    (hp : p ∈ l) (ht : p.2.tier = none) :
    l.mapM (fun p => p.2.tier) = none := by
  induction l with
  | nil => cases hp
  | cons q qs ih =>
    rw [List.mapM_cons]
    rcases List.mem_cons.mp hp with rfl | hp'
    · rw [ht]
      rfl
    · cases hq : q.2.tier
      · rfl
      · rw [ih hp']
        rfl

lemma addSupplierNode_hasNode (g : DiGraph) (s : Supplier) (x : String) :
    (addSupplierNode g s).hasNode x = (g.hasNode x || (s.id == x)) := by
  by_cases hg : g.hasNode s.id
  · unfold addSupplierNode
    rw [if_pos hg]
    have hmap : DiGraph.hasNode { g with nodes := g.nodes.map (fun p => if p.1 == s.id then (p.1, setSupplierAttrs p.2 s) else p) } x = g.hasNode x := by
      unfold DiGraph.hasNode
      dsimp only
      rw [List.any_map]
      congr 1
      funext p
      simp only [Function.comp_apply]
      split <;> rfl
    rw [hmap]
    by_cases hx : s.id = x
    · subst hx
      simp [hg]
    · have hb : (s.id == x) = false := by simpa using hx
      simp [hb]
  · unfold addSupplierNode
    rw [if_neg hg]
    unfold DiGraph.hasNode
    dsimp only
    rw [List.any_append]
    simp [DiGraph.hasNode]

lemma foldl_addSupplierNode_hasNode (suppliers : List Supplier) :
    ∀ (g : DiGraph) (x : String),
      (suppliers.foldl addSupplierNode g).hasNode x =
        (g.hasNode x || suppliers.any (fun s => s.id == x)) := by
  induction suppliers with
  | nil => intro g x; simp
  | cons s ss ih =>
    intro g x
    rw [List.foldl_cons, ih, addSupplierNode_hasNode]
    simp [Bool.or_assoc]

lemma addEdge_nodes_of_hasNode (g : DiGraph) (s t : String) (w : ℚ)
    (hs : g.hasNode s = true) (ht : g.hasNode t = true) :
    (addEdge g s t w).nodes = g.nodes := by
  have hs' : (g.nodes.any fun p => p.1 == s) = true := hs
  have ht' : (g.nodes.any fun p => p.1 == t) = true := ht
  unfold addEdge
  dsimp only
  rw [if_pos hs', if_pos ht']

lemma foldl_addEdge_nodes (deps : List Dependency) :
    ∀ g : DiGraph,
      (∀ d ∈ deps, g.hasNode d.source_id = true ∧ g.hasNode d.target_id = true) →
      (deps.foldl (fun g d => addEdge g d.source_id d.target_id d.dependency_weight) g).nodes
        = g.nodes := by
  induction deps with
  | nil => intro g _; rfl
  | cons d ds ih =>
    intro g h
    obtain ⟨h1, h2⟩ := h d (List.mem_cons_self d ds)
    have hn := addEdge_nodes_of_hasNode g d.source_id d.target_id d.dependency_weight h1 h2
    rw [List.foldl_cons, ih, hn]
    intro e he
    have he' := h e (List.mem_cons_of_mem d he)
    constructor
    · show ((addEdge g d.source_id d.target_id d.dependency_weight).nodes.any
        fun p => p.1 == e.source_id) = true
      rw [hn]
      exact he'.1
    · show ((addEdge g d.source_id d.target_id d.dependency_weight).nodes.any
        fun p => p.1 == e.target_id) = true
      rw [hn]
      exact he'.2

lemma addEdge_mem_mono (g : DiGraph) (s t : String) (w : ℚ)
    (p : String × NodeAttrs) (hp : p ∈ g.nodes) : p ∈ (addEdge g s t w).nodes := by
  unfold addEdge
  dsimp only
  split_ifs <;> simp_all [List.mem_append]

lemma foldl_addEdge_mem_mono (deps : List Dependency) :
    ∀ (g : DiGraph) (p : String × NodeAttrs), p ∈ g.nodes →
      p ∈ (deps.foldl (fun g d => addEdge g d.source_id d.target_id d.dependency_weight)
        g).nodes := by
  induction deps with
  | nil => intro g p hp; exact hp
  | cons d ds ih => intro g p hp; exact ih _ p (addEdge_mem_mono g _ _ _ p hp)

lemma addEdge_hasNode_other (g : DiGraph) (s t : String) (w : ℚ) (x : String)
    (hxs : x ≠ s) (hxt : x ≠ t) :
    (addEdge g s t w).hasNode x = g.hasNode x := by
  have hs' : (s == x) = false := by simpa using fun h => hxs h.symm
  have ht' : (t == x) = false := by simpa using fun h => hxt h.symm
  unfold addEdge DiGraph.hasNode
  dsimp only
  split_ifs <;> simp [List.any_append, hs', ht']

lemma addEdge_creates (g : DiGraph) (s t : String) (w : ℚ) (x : String)
    (hx : g.hasNode x = false) (hxe : x = s ∨ x = t) :
    (x, ({} : NodeAttrs)) ∈ (addEdge g s t w).nodes := by
  have hx' : (g.nodes.any fun p => p.1 == x) = false := hx
  unfold addEdge
  dsimp only
  rcases hxe with rfl | rfl
  · rw [if_neg (show ¬ (g.nodes.any fun p => p.1 == x) = true by simp [hx'])]
    by_cases h2 : ((g.nodes ++ [(x, ({} : NodeAttrs))]).any fun p => p.1 == t) = true
    · rw [if_pos h2]
      simp
    · rw [if_neg h2]
      simp
  · by_cases hs : (g.nodes.any fun p => p.1 == s) = true
    · rw [if_pos hs,
        if_neg (show ¬ (g.nodes.any fun p => p.1 == x) = true by simp [hx'])]
      simp
    · rw [if_neg hs]
      by_cases hsx : s = x
      · subst hsx
        rw [if_pos (show ((g.nodes ++ [(s, ({} : NodeAttrs))]).any fun p => p.1 == s) = true
            by simp [List.any_append])]
        simp
      · have hb : (s == x) = false := by simpa using hsx
        rw [if_neg (show ¬ ((g.nodes ++ [(s, ({} : NodeAttrs))]).any fun p => p.1 == x) = true
            by simp [List.any_append, hx', hb])]
        simp

lemma foldl_addEdge_creates (deps : List Dependency) :
    ∀ (g : DiGraph) (x : String), g.hasNode x = false →
      (∃ d ∈ deps, d.source_id = x ∨ d.target_id = x) →
      (x, ({} : NodeAttrs)) ∈
        (deps.foldl (fun g d => addEdge g d.source_id d.target_id d.dependency_weight)
          g).nodes := by
  induction deps with
  | nil =>
    intro g x _ h
    obtain ⟨d, hd, _⟩ := h
    cases hd
  | cons d ds ih =>
    intro g x hx hex
    rw [List.foldl_cons]
    by_cases hxd : d.source_id = x ∨ d.target_id = x
    · have hmem : (x, ({} : NodeAttrs)) ∈
          (addEdge g d.source_id d.target_id d.dependency_weight).nodes :=
        addEdge_creates g _ _ _ x hx (hxd.imp Eq.symm Eq.symm)
      exact foldl_addEdge_mem_mono ds _ _ hmem
    · have h1 : x ≠ d.source_id := fun h => hxd (Or.inl h.symm)
      have h2 : x ≠ d.target_id := fun h => hxd (Or.inr h.symm)
      have hx2 : (addEdge g d.source_id d.target_id d.dependency_weight).hasNode x = false := by
        rw [addEdge_hasNode_other g _ _ _ x h1 h2]
        exact hx
      obtain ⟨e, he, hee⟩ := hex
      rcases List.mem_cons.mp he with rfl | he'
      · exact absurd hee hxd
      · exact ih _ x hx2 ⟨e, he', hee⟩

lemma addSupplierNode_nodes_ne_nil (g : DiGraph) (s : Supplier) :
    (addSupplierNode g s).nodes ≠ [] := by
  unfold addSupplierNode
  split
  · next h =>
    intro hnil
    dsimp only at hnil
    rw [List.map_eq_nil_iff] at hnil
    unfold DiGraph.hasNode at h
    rw [hnil] at h
    simp at h
  · simp

lemma foldl_addSupplierNode_ne_nil (ss : List Supplier) :
    ∀ g : DiGraph, g.nodes ≠ [] → (ss.foldl addSupplierNode g).nodes ≠ [] := by
  induction ss with
  | nil => intro g h; exact h
  | cons s ss ih => intro g _; exact ih _ (addSupplierNode_nodes_ne_nil g s)

/-! ## Claim C1 -/

/-- A supplier row used in concrete instances. -/
def exSupplier (id : String) (nm : String) (tier : ℕ) : Supplier :=
  { id := id, name := nm, tier := tier, component := "comp", country := "Xland"
    country_code := "XX", region := "RegionA", contract_value_eur_m := 1
    lead_time_days := 10, financial_health := 50, past_disruptions := 0, has_backup := false }

/-- C1, counterexample.  First input: a duplicate supplier id (`"S1"`
twice) and a supplier whose country code `"XX"` is absent from the (empty)
country table — the original claim demands a `ValidationError` and no
graph, but `build_graph` succeeds, returning a graph in which the two
`"S1"` rows were silently merged into one node carrying the second row's
name and no country fields.  Second input: a dangling dependency endpoint
(`"T"` is no supplier) — the build does abort, but not by validation:
`add_edge` has already silently created `"T"` as an attribute-less node,
and the statistics step then raises a `KeyError` reading its `tier`
(modelled as `none`), not a `ValidationError`. -/
theorem build_graph_no_validation_counterexample :
    (∃ g, build_graph [exSupplier "S1" "A1" 3, exSupplier "S1" "A2" 3] [] [] = some g ∧
      g.nodes.length = 1 ∧ (g.attr "S1").name = some "A2" ∧
      (g.attr "S1").political_stability = none) ∧
    build_graph [exSupplier "S1" "A1" 3]
      [{ source_id := "S1", target_id := "T", dependency_weight := 50 }] [] = none := by
  constructor
  · refine ⟨_, rfl, ?_, ?_, ?_⟩ <;> rfl
  · rfl

/-- C1 (amended): the graph build performs no input validation and raises
no `ValidationError`.  A duplicate supplier id is silently merged (the
later row overwriting the earlier) and a supplier whose country code is
missing from the country table keeps its node with no country fields — in
both cases a graph is returned.  The build fails only incidentally, in its
final statistics step: it returns a graph exactly when the built node set
is nonempty (otherwise the average-degree computation divides by zero) and
every dependency endpoint is a supplier id (otherwise `add_edge` has
silently created the endpoint as an attribute-less node and the tier-count
loop raises a `KeyError` reading its `tier`). -/
theorem build_graph_no_validation (suppliers : List Supplier) (deps : List Dependency)
    (countries : List CountryRisk) :
    (build_graph suppliers deps countries).isSome = true ↔
      ((suppliers ≠ [] ∨ deps ≠ []) ∧
       ∀ d ∈ deps, (suppliers.any fun s => s.id == d.source_id) = true ∧
         (suppliers.any fun s => s.id == d.target_id) = true) := by
  have hcc := foldl_addSupplierNode_cc suppliers {} (by intro p hp; cases hp)
  obtain ⟨ns', hns⟩ := mapM_attach_ok countries _ hcc
  have hids := mapM_attach_ids countries _ ns' hns
  have htier : ∀ q ∈ ns', q.2.tier.isSome :=
    mapM_attach_tier countries _ ns' hns
      (foldl_addSupplierNode_tier suppliers {} (by intro p hp; cases hp))
  set g1 := suppliers.foldl addSupplierNode {} with hg1
  set g2 : DiGraph := { g1 with nodes := ns' } with hg2
  set g3 := deps.foldl (fun g d => addEdge g d.source_id d.target_id d.dependency_weight) g2
    with hg3
  have hbuild : build_graph suppliers deps countries =
      (printNetworkStats g3).bind (fun _ => some g3) := by
    unfold build_graph
    dsimp only
    rw [hns]
    rfl
  have hasg2 : ∀ x : String, g2.hasNode x = (suppliers.any fun s => s.id == x) := by
    intro x
    have hkey : ∀ (l : List (String × NodeAttrs)),
        (l.any fun p => p.1 == x) = ((l.map Prod.fst).any fun i => i == x) := by
      intro l
      induction l with
      | nil => rfl
      | cons p ps ih => simp [List.any_cons, ih]
    rw [hg2]
    show (ns'.any fun p => p.1 == x) = _
    rw [hkey, hids, ← hkey]
    show g1.hasNode x = _
    rw [hg1]
    have hfold := foldl_addSupplierNode_hasNode suppliers {} x
    have hempty : (DiGraph.hasNode {} x) = false := rfl
    rw [hempty, Bool.false_or] at hfold
    exact hfold
  constructor
  · intro hs
    constructor
    · by_contra hcon
      push_neg at hcon
      rw [hcon.1, hcon.2] at hs
      rw [show build_graph [] [] countries = none from rfl] at hs
      simp at hs
    · intro d hd
      by_contra hcon
      have hex : ∃ x, (suppliers.any fun s => s.id == x) = false ∧
          (d.source_id = x ∨ d.target_id = x) := by
        by_cases hA : (suppliers.any fun s => s.id == d.source_id) = true
        · refine ⟨d.target_id, ?_, Or.inr rfl⟩
          cases hB : (suppliers.any fun s => s.id == d.target_id)
          · rfl
          · exact absurd ⟨hA, hB⟩ hcon
        · exact ⟨d.source_id, eq_false_of_ne_true hA, Or.inl rfl⟩
      obtain ⟨x, hxf, hside⟩ := hex
      have hx2 : g2.hasNode x = false := by
        rw [hasg2]
        exact hxf
      have hmem : (x, ({} : NodeAttrs)) ∈ g3.nodes := by
        rw [hg3]
        exact foldl_addEdge_creates deps g2 x hx2 ⟨d, hd, hside⟩
      have hnone : g3.nodes.mapM (fun p => p.2.tier) = none :=
        mapM_tier_none g3.nodes (x, ({} : NodeAttrs)) hmem rfl
      rw [hbuild] at hs
      unfold printNetworkStats at hs
      rw [hnone] at hs
      simp at hs
  · rintro ⟨hne, hend⟩
    have hsup : suppliers ≠ [] := by
      rcases hne with h | h
      · exact h
      · obtain ⟨d, hd⟩ := List.exists_mem_of_ne_nil _ h
        intro hnil
        have hA := (hend d hd).1
        rw [hnil] at hA
        simp at hA
    have hg2e : ∀ d ∈ deps, g2.hasNode d.source_id = true ∧ g2.hasNode d.target_id = true := by
      intro d hd
      rw [hasg2, hasg2]
      exact hend d hd
    have hnodes3 : g3.nodes = g2.nodes := by
      rw [hg3]
      exact foldl_addEdge_nodes deps g2 hg2e
    have htier3 : ∀ p ∈ g3.nodes, p.2.tier.isSome := by
      rw [hnodes3, hg2]
      exact htier
    obtain ⟨ts, hts⟩ := mapM_tier_ok g3.nodes htier3
    have hg1nil : g1.nodes ≠ [] := by
      rw [hg1]
      cases suppliers with
      | nil => exact absurd rfl hsup
      | cons s ss =>
        rw [List.foldl_cons]
        exact foldl_addSupplierNode_ne_nil ss _ (addSupplierNode_nodes_ne_nil {} s)
    have hnsnil : ns' ≠ [] := by
      intro hnil
      rw [hnil] at hids
      have hgnil : g1.nodes = [] := by
        have h' := hids.symm
        simp only [List.map_nil] at h'
        rwa [List.map_eq_nil_iff] at h'
      exact hg1nil hgnil
    have hempty3 : g3.nodes.isEmpty = false := by
      rw [hnodes3, hg2]
      cases hns2 : ns' with
      | nil => exact absurd hns2 hnsnil
      | cons a l => rfl
    rw [hbuild]
    unfold printNetworkStats
    rw [hts, hempty3]
    simp

/-- C1, witness for the amended theorem at a concrete input: two suppliers
and one dependency between them build successfully. -/
theorem build_graph_no_validation_witness :
    (build_graph [exSupplier "S2" "B" 2, exSupplier "S3" "C" 1]
      [{ source_id := "S2", target_id := "S3", dependency_weight := 30 }] []).isSome = true :=
  (build_graph_no_validation [exSupplier "S2" "B" 2, exSupplier "S3" "C" 1]
      [{ source_id := "S2", target_id := "S3", dependency_weight := 30 }] []).mpr
    ⟨Or.inl (by simp), by decide⟩

/-! ## Claim C6 -/

/-- C6: in every Monte Carlo iteration each candidate supplier fails with
probability exactly `min(0.95, (propagated/100) × min(duration/30, 1.5))`;
the cap is 0.95, the duration factor caps at 1.5, and no further clamping
is applied (the equality is exact for all inputs). -/
theorem failure_probability_formula (propagated_risk duration_days : ℚ) :
    failure_probability propagated_risk duration_days =
      min (19/20) ((propagated_risk / 100) * min (duration_days / 30) (3/2)) := by
  unfold failure_probability
  exact min_comm _ _

/-! ## Claim C9 -/

/-- C9: the Monte Carlo simulator, the sensitivity analyzer and the
recommendation engine are read-only on the shared pipeline data: the
annotated graph (every node attribute written by the earlier stages) and
the product BOM are identical before and after each invocation. -/
theorem later_stages_readonly (st : PipelineState) (r : RngState) (target : String)
    (duration_days : ℚ) (iterations : ℕ) (scenKind : String) (order : List String) :
    (run_simulation_st st r target duration_days iterations scenKind order).1 = st ∧
    (calculate_criticality_ranking_st st).1 = st ∧
    (generate_all_recommendations_st st).1 = st :=
  ⟨rfl, rfl, rfl⟩

/-! ## Claim C10 -/

lemma concentration_risk_isSome (g : DiGraph) (n : String)
    (h : (g.attr n).tier.isSome) : ∃ c, concentration_risk g n = some c := by
  obtain ⟨t, ht⟩ := Option.isSome_iff_exists.mp h
  unfold concentration_risk
  rw [ht]
  by_cases h1 : (g.preds n).length ≤ 1 <;> by_cases h2 : t = 1 <;> simp [h1, h2]

lemma round2_fifty : round2 50 = 50 := by
  norm_num [round2, roundHalfEven]

/-- C10: a node whose country attributes were never attached does not make
the scorer raise: each missing country field is read with default 50, and a
composite score and category are still produced. -/
theorem scorer_missing_country_defaults (g : DiGraph) (n : String)
    (htier : (g.attr n).tier.isSome)
    (hps : (g.attr n).political_stability = none)
    (hnd : (g.attr n).natural_disaster_freq = none)
    (hlp : (g.attr n).logistics_performance = none) :
    ∃ rec c, concentration_risk g n = some c ∧ calculate_node_risk g n = some rec ∧
      rec.geopolitical = 50 ∧ rec.natural_disaster = 50 ∧ rec.logistics = 50 ∧
      rec.composite = round2 (clip0100 (50 * (30/100) + 50 * (20/100) +
        financial_risk (g.attr n) * (20/100) + 50 * (15/100) + c * (15/100))) ∧
      rec.category = get_risk_category (clip0100 (50 * (30/100) + 50 * (20/100) +
        financial_risk (g.attr n) * (20/100) + 50 * (15/100) + c * (15/100))) := by
  obtain ⟨c, hc⟩ := concentration_risk_isSome g n htier
  have hgeo : geopolitical_risk (g.attr n) = 50 := by
    simp [geopolitical_risk, hps]
  have hndr : natural_disaster_risk (g.attr n) = 50 := by
    simp [natural_disaster_risk, hnd]
  have hlog : logistics_risk (g.attr n) = 50 := by
    simp [logistics_risk, hlp]
    norm_num
  have hcalc : calculate_node_risk g n = some
      { geopolitical := round2 (geopolitical_risk (g.attr n))
        natural_disaster := round2 (natural_disaster_risk (g.attr n))
        financial := round2 (financial_risk (g.attr n))
        logistics := round2 (logistics_risk (g.attr n))
        concentration := round2 c
        composite := round2 (clip0100 (geopolitical_risk (g.attr n) * (30/100) +
          natural_disaster_risk (g.attr n) * (20/100) + financial_risk (g.attr n) * (20/100) +
          logistics_risk (g.attr n) * (15/100) + c * (15/100)))
        category := get_risk_category (clip0100 (geopolitical_risk (g.attr n) * (30/100) +
          natural_disaster_risk (g.attr n) * (20/100) + financial_risk (g.attr n) * (20/100) +
          logistics_risk (g.attr n) * (15/100) + c * (15/100))) } := by
    unfold calculate_node_risk
    rw [hc]
    rfl
  rw [hgeo, hndr, hlog] at hcalc
  exact ⟨_, c, hc, hcalc, round2_fifty, round2_fifty, round2_fifty, rfl, rfl⟩

/-- A node with a tier but no country data, for the C10 witness. -/
def c10G : DiGraph :=
  { nodes := [("S1", { tier := some 1, financial_health := some 40 })], edges := [] }

/-- C10, witness at a concrete node. -/
theorem scorer_missing_country_defaults_witness :
    ∃ rec c, concentration_risk c10G "S1" = some c ∧ calculate_node_risk c10G "S1" = some rec ∧
      rec.geopolitical = 50 ∧ rec.natural_disaster = 50 ∧ rec.logistics = 50 ∧
      rec.composite = round2 (clip0100 (50 * (30/100) + 50 * (20/100) +
        financial_risk (c10G.attr "S1") * (20/100) + 50 * (15/100) + c * (15/100))) ∧
      rec.category = get_risk_category (clip0100 (50 * (30/100) + 50 * (20/100) +
        financial_risk (c10G.attr "S1") * (20/100) + 50 * (15/100) + c * (15/100))) :=
  scorer_missing_country_defaults c10G "S1" (by decide) (by decide) (by decide) (by decide)

/-! ## Claim C2 — supporting lemmas -/

/-- `node['risk_composite']` with 0 standing for an absent key (under the
well-formedness hypotheses below the key is always present). -/
def compositeOf (g : DiGraph) (n : String) : ℚ := ((g.attr n).risk_composite).getD 0

/-- `node['tier']` with 0 standing for an absent key. -/
def tierOf (g : DiGraph) (n : String) : ℕ := ((g.attr n).tier).getD 0

/-- Well-formedness of a scored graph as the propagation claim assumes it:
distinct node ids, every node carrying a tier in {1,2,3} and a composite
score, and every edge running between nodes from a strictly higher to a
strictly lower tier. -/
def PropWF (g : DiGraph) : Prop :=
  g.nodeIds.Nodup ∧
  (∀ p ∈ g.nodes, (p.2.tier = some 1 ∨ p.2.tier = some 2 ∨ p.2.tier = some 3) ∧
    p.2.risk_composite.isSome) ∧
  (∀ e ∈ g.edges, g.hasNode e.1 = true ∧ g.hasNode e.2.1 = true ∧
    tierOf g e.2.1 < tierOf g e.1)

lemma dedupKeepFirst_go_mem (x : String) :
    ∀ (l seen : List String), x ∈ dedupKeepFirst.go seen l ↔ (x ∈ l ∧ x ∉ seen) := by
  intro l
  induction l with
  | nil => intro seen; simp [dedupKeepFirst.go]
  | cons y ys ih =>
    intro seen
    by_cases hy : y ∈ seen
    · rw [show dedupKeepFirst.go seen (y :: ys) = dedupKeepFirst.go seen ys from by
        simp [dedupKeepFirst.go, hy]]
      rw [ih]
      simp only [List.mem_cons]
      constructor
      · rintro ⟨h1, h2⟩; exact ⟨Or.inr h1, h2⟩
      · rintro ⟨rfl | h1, h2⟩
        · exact absurd hy h2
        · exact ⟨h1, h2⟩
    · rw [show dedupKeepFirst.go seen (y :: ys) = y :: dedupKeepFirst.go (y :: seen) ys from by
        simp [dedupKeepFirst.go, hy]]
      simp only [List.mem_cons, ih]
      constructor
      · rintro (rfl | ⟨h1, h2⟩)
        · exact ⟨Or.inl rfl, hy⟩
        · exact ⟨Or.inr h1, fun hs => h2 (Or.inr hs)⟩
      · rintro ⟨rfl | h1, h2⟩
        · exact Or.inl rfl
        · rcases eq_or_ne x y with rfl | hxy
          · exact Or.inl rfl
          · exact Or.inr ⟨h1, by simp [List.mem_cons, hxy, h2]⟩

lemma mem_dedupKeepFirst (x : String) (l : List String) :
    x ∈ dedupKeepFirst l ↔ x ∈ l := by
  unfold dedupKeepFirst
  rw [dedupKeepFirst_go_mem]
  simp

lemma mem_preds (g : DiGraph) (u n : String) :
    u ∈ g.preds n ↔ ∃ w, (u, n, w) ∈ g.edges := by
  unfold DiGraph.preds
  rw [mem_dedupKeepFirst]
  simp only [List.mem_map, List.mem_filter, beq_iff_eq]
  constructor
  · rintro ⟨⟨a, b, w⟩, ⟨hmem, hb⟩, rfl⟩
    simp only at hb
    exact ⟨w, by simpa [hb] using hmem⟩
  · rintro ⟨w, hw⟩
    exact ⟨(u, n, w), ⟨hw, rfl⟩, rfl⟩

lemma hasNode_iff (g : DiGraph) (n : String) :
    g.hasNode n = true ↔ ∃ a, (n, a) ∈ g.nodes := by
  unfold DiGraph.hasNode
  simp only [List.any_eq_true, beq_iff_eq]
  constructor
  · rintro ⟨⟨k, a⟩, hmem, rfl⟩
    exact ⟨a, hmem⟩
  · rintro ⟨a, ha⟩
    exact ⟨(n, a), ha, rfl⟩

lemma find_key_nodup (l : List (String × NodeAttrs)) (hnd : (l.map Prod.fst).Nodup)
    (n : String) (a : NodeAttrs) (h : (n, a) ∈ l) :
    l.find? (fun p => p.1 == n) = some (n, a) := by
  induction l with
  | nil => cases h
  | cons p ps ih =>
    rcases List.mem_cons.mp h with rfl | h'
    · simp
    · have hk : (p.1 == n) ≠ true := by
        intro hb
        rw [beq_iff_eq] at hb
        have : n ∈ ps.map Prod.fst := List.mem_map.mpr ⟨(n, a), h', rfl⟩
        exact (List.nodup_cons.mp hnd).1 (hb ▸ this)
      rw [List.find?_cons_of_neg _ (by simpa using hk)]
      exact ih (List.nodup_cons.mp hnd).2 h'

lemma attr_eq_of_mem (g : DiGraph) (hnd : g.nodeIds.Nodup) (n : String) (a : NodeAttrs)
    (h : (n, a) ∈ g.nodes) : g.attr n = a := by
  unfold DiGraph.attr
  rw [find_key_nodup g.nodes hnd n a h]
  rfl

/-! ### Lookup and insertion lemmas for the propagated-risks dict -/

lemma lookup_map_replace (r : List (String × ℚ)) (n : String) (v : ℚ)
    (h : r.any (fun p => p.1 == n) = true) :
    (r.map (fun p => if p.1 == n then (p.1, v) else p)).lookup n = some v := by
  induction r with
  | nil => simp at h
  | cons p ps ih =>
    by_cases hp : p.1 = n
    · have hb : (p.1 == n) = true := beq_iff_eq.mpr hp
      have hb' : (n == p.1) = true := beq_iff_eq.mpr hp.symm
      rw [List.map_cons, if_pos hb]
      simp [List.lookup, hb']
    · have hb : (p.1 == n) = false := by simpa using hp
      have hb' : (n == p.1) = false := by simpa using (Ne.symm hp)
      have hps : ps.any (fun p => p.1 == n) = true := by simpa [hb] using h
      rw [List.map_cons, if_neg (by simp [hb])]
      simp only [List.lookup, hb']
      simpa using ih hps

lemma lookup_append_same (r : List (String × ℚ)) (n : String) (v : ℚ) :
    (r.any (fun p => p.1 == n) = false) → (r ++ [(n, v)]).lookup n = some v := by
  induction r with
  | nil => intro _; simp [List.lookup]
  | cons p ps ih =>
    intro h
    have hp : p.1 ≠ n := by
      intro he; simp [he] at h
    have hb' : (n == p.1) = false := by simpa using (Ne.symm hp)
    have hps : ps.any (fun p => p.1 == n) = false := by
      simpa [show (p.1 == n) = false from by simpa using hp] using h
    simp [List.lookup, hb', ih hps]

lemma lookup_insertRisk_self (r : List (String × ℚ)) (n : String) (v : ℚ) :
    (insertRisk r n v).lookup n = some v := by
  unfold insertRisk
  by_cases hany : r.any (fun p => p.1 == n) = true
  · rw [if_pos hany]; exact lookup_map_replace r n v hany
  · rw [if_neg hany]
    exact lookup_append_same r n v (eq_false_of_ne_true hany)

lemma lookup_map_replace_ne (r : List (String × ℚ)) (n m : String) (v : ℚ)
    (hne : m ≠ n) :
    (r.map (fun p => if p.1 == n then (p.1, v) else p)).lookup m = r.lookup m := by
  induction r with
  | nil => rfl
  | cons p ps ih =>
    by_cases hp : p.1 = n
    · have hb : (p.1 == n) = true := beq_iff_eq.mpr hp
      have hb' : (m == p.1) = false := by
        simpa using (show m ≠ p.1 from hp ▸ hne)
      rw [List.map_cons, if_pos hb]
      simp only [List.lookup, hb']
      simpa using ih
    · have hb : (p.1 == n) = false := by simpa using hp
      rw [List.map_cons, if_neg (by simp [hb])]
      cases hmp : (m == p.1) <;> simp only [List.lookup, hmp] <;> simpa using ih

lemma lookup_append_ne (r : List (String × ℚ)) (n m : String) (v : ℚ)
    (hne : m ≠ n) : (r ++ [(n, v)]).lookup m = r.lookup m := by
  induction r with
  | nil => simp [List.lookup, show (m == n) = false from by simpa using hne]
  | cons p ps ih =>
    cases hmp : (m == p.1) <;> simp [List.lookup, hmp, ih]

lemma lookup_insertRisk_ne (r : List (String × ℚ)) (n m : String) (v : ℚ)
    (hne : m ≠ n) : (insertRisk r n v).lookup m = r.lookup m := by
  unfold insertRisk
  split
  · exact lookup_map_replace_ne r n m v hne
  · exact lookup_append_ne r n m v hne

lemma mapM_lookup_eq (acc : List (String × ℚ)) (l : List String)
    (h : ∀ u ∈ l, (acc.lookup u).isSome) :
    l.mapM acc.lookup = some (l.map (fun u => (acc.lookup u).getD 0)) := by
  induction l with
  | nil => rfl
  | cons u us ih =>
    obtain ⟨v, hv⟩ := Option.isSome_iff_exists.mp (h u (List.mem_cons_self u us))
    rw [List.mapM_cons, hv, ih (fun x hx => h x (List.mem_cons_of_mem u hx))]
    simp [hv]

/-! ### Characterizing the tier lists -/

/-- The value `tierListM` produces when every node has a tier. -/
def tierNodes (g : DiGraph) (t : ℕ) : List String :=
  (g.nodes.filter (fun p => p.2.tier == some t)).map Prod.fst

lemma tierListM_go_eq (t : ℕ) (l : List (String × NodeAttrs))
    (h : ∀ p ∈ l, p.2.tier.isSome) :
    tierListM.go t l = some ((l.filter (fun p => p.2.tier == some t)).map Prod.fst) := by
  induction l with
  | nil => rfl
  | cons p ps ih =>
    obtain ⟨tr, htr⟩ := Option.isSome_iff_exists.mp (h p (List.mem_cons_self p ps))
    have ihr := ih (fun q hq => h q (List.mem_cons_of_mem p hq))
    unfold tierListM.go
    rw [htr, ihr]
    by_cases ht : tr = t
    · subst ht
      simp [List.filter_cons, htr]
    · have : (p.2.tier == some t) = false := by simp [htr, ht]
      simp [List.filter_cons, this, ht, htr]

lemma tierListM_eq (g : DiGraph) (t : ℕ) (h : ∀ p ∈ g.nodes, p.2.tier.isSome) :
    tierListM g t = some (tierNodes g t) :=
  tierListM_go_eq t g.nodes h

lemma tierNodes_nodup (g : DiGraph) (hnd : g.nodeIds.Nodup) (t : ℕ) :
    (tierNodes g t).Nodup :=
  ((List.filter_sublist g.nodes).map Prod.fst).nodup hnd

lemma mem_tierNodes_iff (g : DiGraph) (hnd : g.nodeIds.Nodup) (t : ℕ) (n : String) :
    n ∈ tierNodes g t ↔ g.hasNode n = true ∧ (g.attr n).tier = some t := by
  unfold tierNodes
  simp only [List.mem_map, List.mem_filter]
  constructor
  · rintro ⟨⟨k, a⟩, ⟨hmem, htier⟩, rfl⟩
    have ha := attr_eq_of_mem g hnd k a hmem
    refine ⟨(hasNode_iff g k).mpr ⟨a, hmem⟩, ?_⟩
    rw [ha]
    simpa using htier
  · rintro ⟨hh, ht⟩
    obtain ⟨a, ha⟩ := (hasNode_iff g n).mp hh
    have := attr_eq_of_mem g hnd n a ha
    exact ⟨(n, a), ⟨ha, by rw [← this]; simpa using ht⟩, rfl⟩

/-! ### The per-node propagation formula -/

/-- `np.mean`. -/
def meanQ (l : List ℚ) : ℚ := l.sum / (l.length : ℚ)

/-- The value `_propagate_node_risk` computes from the dict `acc` (its
`Option` wrapper removed); `getD 0` placeholders never fire under the
success hypotheses. -/
def propValue (g : DiGraph) (acc : List (String × ℚ)) (n : String) : ℚ :=
  if (g.preds n).isEmpty then compositeOf g n
  else max (compositeOf g n) (compositeOf g n * (6/10) +
    meanQ ((g.preds n).map (fun u => (acc.lookup u).getD 0)) * (4/10))

lemma propagate_node_risk_eq (g : DiGraph) (acc : List (String × ℚ)) (n : String)
    (hc : ((g.attr n).risk_composite).isSome)
    (hp : ∀ u ∈ g.preds n, (acc.lookup u).isSome) :
    propagate_node_risk g acc n = some (propValue g acc n) := by
  obtain ⟨own, hown⟩ := Option.isSome_iff_exists.mp hc
  unfold propagate_node_risk propValue
  rw [hown]
  by_cases he : (g.preds n).isEmpty
  · simp [he, compositeOf, hown]
  · simp only [he, Bool.false_eq_true, if_false, Option.some_bind]
    rw [mapM_lookup_eq acc _ hp]
    simp [compositeOf, hown, meanQ]

lemma propValue_congr (g : DiGraph) (acc acc' : List (String × ℚ)) (n : String)
    (h : ∀ u ∈ g.preds n, acc'.lookup u = acc.lookup u) :
    propValue g acc' n = propValue g acc n := by
  unfold propValue
  by_cases he : (g.preds n).isEmpty
  · simp [he]
  · simp only [he, Bool.false_eq_true, if_false]
    rw [List.map_congr_left (fun u hu => by rw [h u hu])]

lemma le_propValue (g : DiGraph) (acc : List (String × ℚ)) (n : String) :
    compositeOf g n ≤ propValue g acc n := by
  unfold propValue
  split
  · exact le_refl _
  · exact le_max_left _ _

/-! ### The phase loops of `propagate_all_risks` -/

lemma baseTier_ok (g : DiGraph) :
    ∀ (ns : List String) (acc : List (String × ℚ)), ns.Nodup →
    (∀ n ∈ ns, ((g.attr n).risk_composite).isSome) →
    ∃ out, ns.foldlM (fun acc n => do
        let c ← (g.attr n).risk_composite
        pure (insertRisk acc n c)) acc = some out ∧
      (∀ m, m ∉ ns → out.lookup m = acc.lookup m) ∧
      (∀ n ∈ ns, out.lookup n = some (compositeOf g n)) := by
  intro ns
  induction ns with
  | nil =>
    intro acc _ _
    exact ⟨acc, rfl, fun m _ => rfl, fun n h => absurd h (List.not_mem_nil n)⟩
  | cons n rest ih =>
    intro acc hnd hcomp
    obtain ⟨c, hc⟩ := Option.isSome_iff_exists.mp (hcomp n (List.mem_cons_self n rest))
    have hn_notin := (List.nodup_cons.mp hnd).1
    obtain ⟨out, hfold, hother, hmem⟩ := ih (insertRisk acc n c) (List.nodup_cons.mp hnd).2
      (fun m hm => hcomp m (List.mem_cons_of_mem n hm))
    refine ⟨out, ?_, ?_, ?_⟩
    · rw [List.foldlM_cons, hc]
      simpa using hfold
    · intro m hm
      have hm1 : m ∉ rest := fun h => hm (List.mem_cons_of_mem n h)
      have hm2 : m ≠ n := fun h => hm (h ▸ List.mem_cons_self n rest)
      rw [hother m hm1, lookup_insertRisk_ne acc n m c hm2]
    · intro m hm
      rcases List.mem_cons.mp hm with rfl | hm'
      · rw [hother m hn_notin, lookup_insertRisk_self]
        simp [compositeOf, hc]
      · exact hmem m hm'

lemma processTier_ok (g : DiGraph) :
    ∀ (ns : List String) (acc : List (String × ℚ)), ns.Nodup →
    (∀ n ∈ ns, ((g.attr n).risk_composite).isSome) →
    (∀ n ∈ ns, ∀ u ∈ g.preds n, (acc.lookup u).isSome ∧ u ∉ ns) →
    ∃ out, ns.foldlM (fun acc n => do
        let v ← propagate_node_risk g acc n
        pure (insertRisk acc n v)) acc = some out ∧
      (∀ m, m ∉ ns → out.lookup m = acc.lookup m) ∧
      (∀ n ∈ ns, out.lookup n = some (propValue g acc n)) := by
  intro ns
  induction ns with
  | nil =>
    intro acc _ _ _
    exact ⟨acc, rfl, fun m _ => rfl, fun n h => absurd h (List.not_mem_nil n)⟩
  | cons n rest ih =>
    intro acc hnd hcomp hpred
    have hstep : propagate_node_risk g acc n = some (propValue g acc n) :=
      propagate_node_risk_eq g acc n (hcomp n (List.mem_cons_self n rest))
        (fun u hu => (hpred n (List.mem_cons_self n rest) u hu).1)
    have hn_notin := (List.nodup_cons.mp hnd).1
    have hpred' : ∀ m ∈ rest, ∀ u ∈ g.preds m,
        ((insertRisk acc n (propValue g acc n)).lookup u).isSome ∧ u ∉ rest := by
      intro m hm u hu
      have h0 := hpred m (List.mem_cons_of_mem n hm) u hu
      have hune : u ≠ n := fun h => h0.2 (h ▸ List.mem_cons_self n rest)
      exact ⟨by rw [lookup_insertRisk_ne acc n u _ hune]; exact h0.1,
        fun hur => h0.2 (List.mem_cons_of_mem n hur)⟩
    obtain ⟨out, hfold, hother, hmem⟩ := ih (insertRisk acc n (propValue g acc n))
      (List.nodup_cons.mp hnd).2 (fun m hm => hcomp m (List.mem_cons_of_mem n hm)) hpred'
    refine ⟨out, ?_, ?_, ?_⟩
    · rw [List.foldlM_cons, hstep]
      simpa using hfold
    · intro m hm
      have hm1 : m ∉ rest := fun h => hm (List.mem_cons_of_mem n h)
      have hm2 : m ≠ n := fun h => hm (h ▸ List.mem_cons_self n rest)
      rw [hother m hm1, lookup_insertRisk_ne acc n m _ hm2]
    · intro m hm
      rcases List.mem_cons.mp hm with rfl | hm'
      · rw [hother m hn_notin, lookup_insertRisk_self]
      · rw [hmem m hm']
        congr 1
        exact propValue_congr g acc _ m (fun u hu =>
          lookup_insertRisk_ne acc n u _
            (fun h => (hpred m (List.mem_cons_of_mem n hm') u hu).2
              (h ▸ List.mem_cons_self n rest)))

/-- The tier-3 → tier-2 → tier-1 chain of the claim's example, with
composite scores 80, 50 and 20 and a single upstream each. -/
def exampleChain : DiGraph :=
  { nodes := [("T3", { tier := some 3, risk_composite := some 80 }),
              ("T2", { tier := some 2, risk_composite := some 50 }),
              ("T1", { tier := some 1, risk_composite := some 20 })]
    edges := [("T3", "T2", 50), ("T2", "T1", 50)] }

/-- C2: on a graph with composite scores set and edges respecting the tier
order, propagation gives every tier-3 node its composite, every tier-2 or
tier-1 node with upstream suppliers `max(composite, composite×0.6 +
mean(upstream propagated)×0.4)` (its own composite when it has none), so
every node's propagated risk is at least its composite; and on the chain
T3(80) → T2(50) → T1(20) the propagated risks are 80, 62 and 36.8. -/
theorem propagate_all_risks_spec (g : DiGraph) (hwf : PropWF g) :
    ∃ risks, propagate_all_risks g = some risks ∧
      (∀ n, g.hasNode n = true → (g.attr n).tier = some 3 →
        risks.lookup n = some (compositeOf g n)) ∧
      (∀ n, g.hasNode n = true → ((g.attr n).tier = some 1 ∨ (g.attr n).tier = some 2) →
        (g.preds n = [] → risks.lookup n = some (compositeOf g n)) ∧
        (g.preds n ≠ [] → ∃ vals, (g.preds n).mapM risks.lookup = some vals ∧
          risks.lookup n = some (max (compositeOf g n)
            (compositeOf g n * (6/10) + (vals.sum / (vals.length : ℚ)) * (4/10))))) ∧
      (∀ n v, risks.lookup n = some v → compositeOf g n ≤ v) ∧
      propagate_all_risks exampleChain = some [("T3", 80), ("T2", 62), ("T1", (184 : ℚ)/5)] := by
  obtain ⟨hnd, hnodes, hedges⟩ := hwf
  have htiers : ∀ p ∈ g.nodes, p.2.tier.isSome := by
    intro p hp; rcases (hnodes p hp).1 with h | h | h <;> simp [h]
  have hcompN : ∀ n, g.hasNode n = true → ((g.attr n).risk_composite).isSome := by
    intro n hn
    obtain ⟨a, ha⟩ := (hasNode_iff g n).mp hn
    rw [attr_eq_of_mem g hnd n a ha]
    exact (hnodes _ ha).2
  have htierN : ∀ n, g.hasNode n = true →
      (g.attr n).tier = some 1 ∨ (g.attr n).tier = some 2 ∨ (g.attr n).tier = some 3 := by
    intro n hn
    obtain ⟨a, ha⟩ := (hasNode_iff g n).mp hn
    rw [attr_eq_of_mem g hnd n a ha]
    exact (hnodes _ ha).1
  have hmemT : ∀ t n, n ∈ tierNodes g t ↔ g.hasNode n = true ∧ (g.attr n).tier = some t :=
    fun t n => mem_tierNodes_iff g hnd t n
  have hnotT : ∀ n t t', (g.attr n).tier = some t → t ≠ t' → n ∉ tierNodes g t' := by
    intro n t t' ht hne hmem
    have h2 := ((hmemT t' n).mp hmem).2
    rw [ht] at h2
    exact hne (Option.some.inj h2)
  have hpredfacts : ∀ n u, u ∈ g.preds n → g.hasNode u = true ∧ tierOf g n < tierOf g u := by
    intro n u hu
    obtain ⟨w, hw⟩ := (mem_preds g u n).mp hu
    obtain ⟨h1, _, h3⟩ := hedges _ hw
    exact ⟨h1, h3⟩
  have hcompT : ∀ t, ∀ n ∈ tierNodes g t, ((g.attr n).risk_composite).isSome :=
    fun t n hn => hcompN n ((hmemT t n).mp hn).1
  -- phase 3
  obtain ⟨out3, hfold3, hother3, hmem3v⟩ :=
    baseTier_ok g (tierNodes g 3) [] (tierNodes_nodup g hnd 3) (hcompT 3)
  -- phase 2
  have hpred2 : ∀ n ∈ tierNodes g 2, ∀ u ∈ g.preds n,
      ((out3.lookup u).isSome) ∧ u ∉ tierNodes g 2 := by
    intro n hn u hu
    obtain ⟨hnn, hnt⟩ := (hmemT 2 n).mp hn
    obtain ⟨huN, hlt⟩ := hpredfacts n u hu
    have htn : tierOf g n = 2 := by simp [tierOf, hnt]
    have hu3 : (g.attr u).tier = some 3 := by
      rcases htierN u huN with h | h | h
      · exfalso; rw [htn] at hlt; simp [tierOf, h] at hlt
      · exfalso; rw [htn] at hlt; simp [tierOf, h] at hlt
      · exact h
    have hu_t3 : u ∈ tierNodes g 3 := (hmemT 3 u).mpr ⟨huN, hu3⟩
    exact ⟨by rw [hmem3v u hu_t3]; rfl, hnotT u 3 2 hu3 (by decide)⟩
  obtain ⟨out2, hfold2, hother2, hmem2v⟩ :=
    processTier_ok g (tierNodes g 2) out3 (tierNodes_nodup g hnd 2) (hcompT 2) hpred2
  -- phase 1
  have hpred1 : ∀ n ∈ tierNodes g 1, ∀ u ∈ g.preds n,
      ((out2.lookup u).isSome) ∧ u ∉ tierNodes g 1 := by
    intro n hn u hu
    obtain ⟨hnn, hnt⟩ := (hmemT 1 n).mp hn
    obtain ⟨huN, hlt⟩ := hpredfacts n u hu
    have htn : tierOf g n = 1 := by simp [tierOf, hnt]
    rcases htierN u huN with h | h | h
    · exfalso; rw [htn] at hlt; simp [tierOf, h] at hlt
    · have hu_t2 : u ∈ tierNodes g 2 := (hmemT 2 u).mpr ⟨huN, h⟩
      exact ⟨by rw [hmem2v u hu_t2]; rfl, hnotT u 2 1 h (by decide)⟩
    · have hu_t3 : u ∈ tierNodes g 3 := (hmemT 3 u).mpr ⟨huN, h⟩
      have hu_nt2 : u ∉ tierNodes g 2 := hnotT u 3 2 h (by decide)
      refine ⟨?_, hnotT u 3 1 h (by decide)⟩
      rw [hother2 u hu_nt2, hmem3v u hu_t3]
      rfl
  obtain ⟨out1, hfold1, hother1, hmem1v⟩ :=
    processTier_ok g (tierNodes g 1) out2 (tierNodes_nodup g hnd 1) (hcompT 1) hpred1
  -- the run succeeds and yields out1
  have hrun : propagate_all_risks g = some out1 := by
    have h3 := hfold3
    have h2 := hfold2
    have h1 := hfold1
    simp only [Option.bind_eq_bind, Option.pure_def] at h3 h2 h1
    unfold propagate_all_risks
    simp only [Option.bind_eq_bind, Option.pure_def]
    rw [tierListM_eq g 1 htiers]
    simp only [Option.some_bind]
    rw [tierListM_eq g 2 htiers]
    simp only [Option.some_bind]
    rw [tierListM_eq g 3 htiers]
    simp only [Option.some_bind]
    rw [h3]
    simp only [Option.some_bind]
    rw [h2]
    simp only [Option.some_bind]
    rw [h1]
    simp only [Option.some_bind]
  -- final lookups per tier
  have hfin3 : ∀ n, g.hasNode n = true → (g.attr n).tier = some 3 →
      out1.lookup n = some (compositeOf g n) := by
    intro n hn ht
    rw [hother1 n (hnotT n 3 1 ht (by decide)), hother2 n (hnotT n 3 2 ht (by decide)),
      hmem3v n ((hmemT 3 n).mpr ⟨hn, ht⟩)]
  have hfin2 : ∀ n, g.hasNode n = true → (g.attr n).tier = some 2 →
      out1.lookup n = some (propValue g out1 n) := by
    intro n hn ht
    have hmem2 : n ∈ tierNodes g 2 := (hmemT 2 n).mpr ⟨hn, ht⟩
    rw [hother1 n (hnotT n 2 1 ht (by decide)), hmem2v n hmem2]
    congr 1
    refine (propValue_congr g out3 out1 n ?_).symm
    intro u hu
    obtain ⟨huN, _⟩ := hpredfacts n u hu
    have hu3 : (g.attr u).tier = some 3 := by
      have := hpred2 n hmem2 u hu
      obtain ⟨hnn, hnt⟩ := (hmemT 2 n).mp hmem2
      have htn : tierOf g n = 2 := by simp [tierOf, hnt]
      rcases htierN u huN with h | h | h
      · exfalso
        have hlt := (hpredfacts n u hu).2
        rw [htn] at hlt; simp [tierOf, h] at hlt
      · exact absurd ((hmemT 2 u).mpr ⟨huN, h⟩) this.2
      · exact h
    rw [hother1 u (hnotT u 3 1 hu3 (by decide)), hother2 u (hnotT u 3 2 hu3 (by decide))]
  have hfin1 : ∀ n, g.hasNode n = true → (g.attr n).tier = some 1 →
      out1.lookup n = some (propValue g out1 n) := by
    intro n hn ht
    have hmem1 : n ∈ tierNodes g 1 := (hmemT 1 n).mpr ⟨hn, ht⟩
    rw [hmem1v n hmem1]
    congr 1
    refine (propValue_congr g out2 out1 n ?_).symm
    intro u hu
    have h1 := hpred1 n hmem1 u hu
    exact hother1 u h1.2
  -- propagated ≥ composite for every key of the dict
  have hge : ∀ n v, out1.lookup n = some v → compositeOf g n ≤ v := by
    intro n v hv
    by_cases h1 : n ∈ tierNodes g 1
    · rw [hmem1v n h1] at hv
      exact (Option.some.inj hv) ▸ le_propValue g out2 n
    · rw [hother1 n h1] at hv
      by_cases h2 : n ∈ tierNodes g 2
      · rw [hmem2v n h2] at hv
        exact (Option.some.inj hv) ▸ le_propValue g out3 n
      · rw [hother2 n h2] at hv
        by_cases h3 : n ∈ tierNodes g 3
        · rw [hmem3v n h3] at hv
          exact le_of_eq (Option.some.inj hv)
        · rw [hother3 n h3] at hv
          cases hv
  -- assemble
  refine ⟨out1, hrun, hfin3, ?_, hge, ?_⟩
  · intro n hn ht
    have hfin : out1.lookup n = some (propValue g out1 n) := by
      rcases ht with h | h
      · exact hfin1 n hn h
      · exact hfin2 n hn h
    constructor
    · intro hp
      rw [hfin]
      unfold propValue
      rw [hp]
      simp
    · intro hp
      have hpe : (g.preds n).isEmpty = false := by
        simpa [List.isEmpty_iff] using hp
      have hsome : ∀ u ∈ g.preds n, (out1.lookup u).isSome := by
        intro u hu
        rcases ht with h | h
        · have h1 := hpred1 n ((hmemT 1 n).mpr ⟨hn, h⟩) u hu
          rw [hother1 u h1.2]
          exact h1.1
        · have hmem2 : n ∈ tierNodes g 2 := (hmemT 2 n).mpr ⟨hn, h⟩
          have h1 := hpred2 n hmem2 u hu
          obtain ⟨huN, _⟩ := hpredfacts n u hu
          have hu3 : (g.attr u).tier = some 3 := by
            obtain ⟨hnn, hnt⟩ := (hmemT 2 n).mp hmem2
            have htn : tierOf g n = 2 := by simp [tierOf, hnt]
            rcases htierN u huN with hh | hh | hh
            · exfalso
              have hlt := (hpredfacts n u hu).2
              rw [htn] at hlt; simp [tierOf, hh] at hlt
            · exact absurd ((hmemT 2 u).mpr ⟨huN, hh⟩) h1.2
            · exact hh
          rw [hother1 u (hnotT u 3 1 hu3 (by decide)), hother2 u (hnotT u 3 2 hu3 (by decide)),
            hmem3v u ((hmemT 3 u).mpr ⟨huN, hu3⟩)]
          rfl
      refine ⟨(g.preds n).map (fun u => (out1.lookup u).getD 0),
        mapM_lookup_eq out1 (g.preds n) hsome, ?_⟩
      rw [hfin]
      unfold propValue
      rw [hpe]
      simp only [Bool.false_eq_true, if_false]
      rfl
  · simp [exampleChain, propagate_all_risks, tierListM, tierListM.go, propagate_node_risk,
      insertRisk, DiGraph.preds, DiGraph.attr, dedupKeepFirst, dedupKeepFirst.go,
      List.foldlM, List.mapM, List.mapM.loop, List.lookup, max_def]
    norm_num

/-- C2, witness: the propagation theorem applied to the concrete example
chain. -/
theorem propagate_all_risks_spec_witness :
    ∃ risks, propagate_all_risks exampleChain = some risks ∧
      (∀ n, exampleChain.hasNode n = true → (exampleChain.attr n).tier = some 3 →
        risks.lookup n = some (compositeOf exampleChain n)) ∧
      (∀ n, exampleChain.hasNode n = true →
          ((exampleChain.attr n).tier = some 1 ∨ (exampleChain.attr n).tier = some 2) →
        (exampleChain.preds n = [] → risks.lookup n = some (compositeOf exampleChain n)) ∧
        (exampleChain.preds n ≠ [] → ∃ vals,
          (exampleChain.preds n).mapM risks.lookup = some vals ∧
          risks.lookup n = some (max (compositeOf exampleChain n)
            (compositeOf exampleChain n * (6/10) + (vals.sum / (vals.length : ℚ)) * (4/10))))) ∧
      (∀ n v, risks.lookup n = some v → compositeOf exampleChain n ≤ v) ∧
      propagate_all_risks exampleChain = some [("T3", 80), ("T2", 62), ("T1", (184 : ℚ)/5)] :=
  propagate_all_risks_spec exampleChain (by unfold PropWF; decide)

/-! ## Claim C3 — revenue exposure -/

/-- The propagated risk a read-only stage sees on a node record:
`risk_propagated` when set, else the composite. -/
def propagatedOf (a : NodeAttrs) : ℚ := a.risk_propagated.getD (a.risk_composite.getD 0)

lemma getPropagatedRisk_eq (a : NodeAttrs) (h : a.risk_composite.isSome) :
    getPropagatedRisk a = some (propagatedOf a) := by
  obtain ⟨c, hc⟩ := Option.isSome_iff_exists.mp h
  unfold getPropagatedRisk propagatedOf
  rw [hc]
  rfl

lemma sum_map_zero (l : List ProductEntry) : (l.map (fun _ => (0 : ℚ))).sum = 0 := by
  induction l with
  | nil => rfl
  | cons x xs ih => simp [ih]

lemma sum_filter_map_eq_sum_ite (l : List ProductEntry) (p : ProductEntry → Bool)
    (f : ProductEntry → ℚ) :
    ((l.filter p).map f).sum = (l.map (fun e => if p e then f e else 0)).sum := by
  induction l with
  | nil => rfl
  | cons e es ih =>
    by_cases hp : p e
    · simp [List.filter_cons, hp, ih]
    · simp [List.filter_cons, hp, ih]

lemma sum_map_add (l : List ProductEntry) (f h : ProductEntry → ℚ) :
    (l.map (fun e => f e + h e)).sum = (l.map f).sum + (l.map h).sum := by
  induction l with
  | nil => simp
  | cons e es ih => simp [ih]; ring

/-- Exchanging the (descendant, product) double sum of
`_calculate_revenue_exposure`: summing product revenues once per matching
descendant equals summing, per product, its revenue times the number of
its descendants. -/
lemma double_sum_swap (pm : List ProductEntry) (q : ProductEntry → Bool) :
    ∀ ds : List String,
    (ds.map (fun d =>
      ((pm.filter (fun e => e.suppliers.contains d && q e)).map (·.revenue)).sum)).sum =
    (pm.map (fun e => if q e then
      e.revenue * (((ds.filter (fun d => e.suppliers.contains d))).length : ℚ) else 0)).sum := by
  intro ds
  induction ds with
  | nil =>
    simp only [List.map_nil, List.sum_nil, List.filter_nil, List.length_nil]
    rw [show (pm.map (fun e => if q e then e.revenue * ((0 : ℕ) : ℚ) else 0)) =
        pm.map (fun _ => (0 : ℚ)) from List.map_congr_left (fun e _ => by
          by_cases hq : q e <;> simp [hq])]
    rw [sum_map_zero]
  | cons d ds ih =>
    simp only [List.map_cons, List.sum_cons, ih]
    rw [sum_filter_map_eq_sum_ite, ← sum_map_add]
    refine congrArg List.sum (List.map_congr_left (fun e _ => ?_))
    by_cases hq : q e
    · by_cases hd : d ∈ e.suppliers
      · simp [hq, hd, List.filter_cons, List.contains]
        ring
      · simp [hq, hd, List.filter_cons, List.contains]
    · simp [hq]

/-- Under distinct product ids, membership of a product's id in the direct
list produced by a filter is exactly the filter's verdict on that
product. -/
lemma contains_filter_map_id (pm : List ProductEntry) (hnodup : (pm.map (·.product_id)).Nodup)
    (p : ProductEntry → Bool) (e : ProductEntry) (he : e ∈ pm) :
    ((pm.filter p).map (·.product_id)).contains e.product_id = p e := by
  have hmem : e.product_id ∈ (pm.filter p).map (·.product_id) ↔ p e = true := by
    constructor
    · intro h
      obtain ⟨e', he', hid⟩ := List.mem_map.mp h
      have he'pm := (List.mem_filter.mp he').1
      have heq : e' = e := List.inj_on_of_nodup_map hnodup he'pm he hid
      exact heq ▸ (List.mem_filter.mp he').2
    · intro hp
      exact List.mem_map.mpr ⟨e, List.mem_filter.mpr ⟨he, hp⟩, rfl⟩
  cases hb : p e
  · have hnot : e.product_id ∉ (pm.filter p).map (·.product_id) := by
      intro h
      have := hmem.mp h
      rw [hb] at this
      cases this
    simp [List.contains, List.elem_eq_mem, hnot]
  · simp [List.contains, List.elem_eq_mem, hmem.mpr hb]

/-- C3 (amended): direct exposure is the sum of the revenues of BOM
products listing the node; *indirect* exposure counts each product's
revenue once per distinct graph descendant of the node that the product
lists (not once per product); total exposure is direct + 0.5 × indirect;
and the ranking row's criticality is (propagated/100) × total exposure. -/
theorem revenue_exposure_spec (g : DiGraph) (pmap : List ProductEntry)
    (p : String × NodeAttrs)
    (hnodup : (pmap.map (·.product_id)).Nodup)
    (hname : p.2.name.isSome) (htier : p.2.tier.isSome) (hctry : p.2.country.isSome)
    (hcomp2 : p.2.component.isSome) (hcv : p.2.contract_value_eur_m.isSome)
    (hrc : p.2.risk_composite.isSome) :
    (calculate_revenue_exposure g pmap p.1).direct_revenue =
      (pmap.map (fun e => if e.suppliers.contains p.1 then e.revenue else 0)).sum ∧
    (calculate_revenue_exposure g pmap p.1).indirect_revenue =
      (pmap.map (fun e => if e.suppliers.contains p.1 then 0 else
        e.revenue * (((g.descendants p.1).filter
          (fun d => e.suppliers.contains d)).length : ℚ))).sum ∧
    (calculate_revenue_exposure g pmap p.1).total_exposure =
      (calculate_revenue_exposure g pmap p.1).direct_revenue +
        (1/2) * (calculate_revenue_exposure g pmap p.1).indirect_revenue ∧
    ∃ row, buildRankRow g pmap p = some row ∧
      row.criticality_score =
        (propagatedOf p.2 / 100) * (calculate_revenue_exposure g pmap p.1).total_exposure := by
  refine ⟨?_, ?_, ?_, ?_⟩
  · exact sum_filter_map_eq_sum_ite pmap _ _
  · show ((g.descendants p.1).map (fun d =>
        ((pmap.filter (fun e => e.suppliers.contains d &&
          !(((pmap.filter (fun e => e.suppliers.contains p.1)).map
            (·.product_id)).contains e.product_id))).map (·.revenue)).sum)).sum = _
    rw [double_sum_swap pmap _ (g.descendants p.1)]
    refine congrArg List.sum (List.map_congr_left (fun e he => ?_))
    rw [contains_filter_map_id pmap hnodup _ e he]
    cases hb : e.suppliers.contains p.1 <;> simp [hb]
  · show (calculate_revenue_exposure g pmap p.1).direct_revenue +
        (calculate_revenue_exposure g pmap p.1).indirect_revenue * (1/2) = _
    ring
  · obtain ⟨nm, hnm⟩ := Option.isSome_iff_exists.mp hname
    obtain ⟨tr, htr⟩ := Option.isSome_iff_exists.mp htier
    obtain ⟨ct, hct⟩ := Option.isSome_iff_exists.mp hctry
    obtain ⟨cp, hcp⟩ := Option.isSome_iff_exists.mp hcomp2
    obtain ⟨cv, hcv0⟩ := Option.isSome_iff_exists.mp hcv
    have hrow : buildRankRow g pmap p = some
        { supplier_id := p.1
          name := nm
          tier := tr
          country := ct
          component := cp
          contract_value_eur_m := cv
          propagated_risk := propagatedOf p.2
          risk_category := p.2.risk_category.getD "UNKNOWN"
          direct_revenue_exposure := (calculate_revenue_exposure g pmap p.1).direct_revenue
          indirect_revenue_exposure := (calculate_revenue_exposure g pmap p.1).indirect_revenue
          total_revenue_exposure := (calculate_revenue_exposure g pmap p.1).total_exposure
          criticality_score :=
            (propagatedOf p.2 / 100) * (calculate_revenue_exposure g pmap p.1).total_exposure
          affected_products := (calculate_revenue_exposure g pmap p.1).affected_products
          downstream_suppliers := (calculate_revenue_exposure g pmap p.1).downstream_count } := by
      unfold buildRankRow
      dsimp only
      rw [getPropagatedRisk_eq _ hrc, hnm, htr, hct, hcp, hcv0]
      rfl
    exact ⟨_, hrow, rfl⟩

/-- A node `A` with two descendants `B` and `C`. -/
def c3G : DiGraph :=
  { nodes := [("A", { name := some "NodeA", tier := some 3, component := some "comp"
                      country := some "Xland", contract_value_eur_m := some 1
                      risk_composite := some 50 }),
              ("B", { tier := some 2, risk_composite := some 50 }),
              ("C", { tier := some 2, risk_composite := some 50 })]
    edges := [("A", "B", 50), ("A", "C", 50)] }

/-- A single product of revenue 10 depending on both descendants of `A`. -/
def c3Pmap : List ProductEntry := build_product_supplier_map
  [{ product_id := "P", product_name := "P", annual_revenue_eur_m := 10
     component_supplier_ids := "B,C" }]

/-- The indirect exposure as claim C3 states it: the revenues of the
products that depend on at least one descendant of the node (and not
directly on the node), each product's revenue counted once. -/
def claimIndirectExposure (g : DiGraph) (pmap : List ProductEntry) (n : String) : ℚ :=
  ((pmap.filter (fun e => (!(e.suppliers.contains n)) &&
    (g.descendants n).any (fun d => e.suppliers.contains d))).map (·.revenue)).sum

/-- C3, counterexample: product `P` (revenue 10) lists both descendants of
`A`, so the code adds its revenue twice — indirect exposure 20, not the 10
the claim's once-per-product reading gives. -/
theorem indirect_exposure_double_count_counterexample :
    (calculate_revenue_exposure c3G c3Pmap "A").indirect_revenue = 20 ∧
    claimIndirectExposure c3G c3Pmap "A" = 10 ∧
    (calculate_revenue_exposure c3G c3Pmap "A").indirect_revenue ≠
      claimIndirectExposure c3G c3Pmap "A" := by
  have h1 : (calculate_revenue_exposure c3G c3Pmap "A").indirect_revenue = 20 := by
    simp [calculate_revenue_exposure, c3G, c3Pmap, build_product_supplier_map,
      splitComma, splitComma.go, DiGraph.descendants, DiGraph.hasPath, DiGraph.reachableFrom,
      DiGraph.reachAux, DiGraph.succs, DiGraph.nodeIds, dedupKeepFirst, dedupKeepFirst.go,
      List.contains, List.filter]
    norm_num
  have h2 : claimIndirectExposure c3G c3Pmap "A" = 10 := by
    simp [claimIndirectExposure, c3G, c3Pmap, build_product_supplier_map,
      splitComma, splitComma.go, DiGraph.descendants, DiGraph.hasPath, DiGraph.reachableFrom,
      DiGraph.reachAux, DiGraph.succs, DiGraph.nodeIds, dedupKeepFirst, dedupKeepFirst.go,
      List.contains, List.filter]
  exact ⟨h1, h2, by rw [h1, h2]; norm_num⟩

/-- C3, witness for the amended theorem at node `A` of the concrete
graph. -/
theorem revenue_exposure_spec_witness :
    (calculate_revenue_exposure c3G c3Pmap "A").direct_revenue =
      (c3Pmap.map (fun e => if e.suppliers.contains "A" then e.revenue else 0)).sum ∧
    (calculate_revenue_exposure c3G c3Pmap "A").indirect_revenue =
      (c3Pmap.map (fun e => if e.suppliers.contains "A" then 0 else
        e.revenue * (((c3G.descendants "A").filter
          (fun d => e.suppliers.contains d)).length : ℚ))).sum ∧
    (calculate_revenue_exposure c3G c3Pmap "A").total_exposure =
      (calculate_revenue_exposure c3G c3Pmap "A").direct_revenue +
        (1/2) * (calculate_revenue_exposure c3G c3Pmap "A").indirect_revenue ∧
    ∃ row, buildRankRow c3G c3Pmap ("A", c3G.attr "A") = some row ∧
      row.criticality_score = (propagatedOf (c3G.attr "A") / 100) *
        (calculate_revenue_exposure c3G c3Pmap "A").total_exposure :=
  revenue_exposure_spec c3G c3Pmap ("A", c3G.attr "A") (by decide) (by decide) (by decide)
    (by decide) (by decide) (by decide) (by decide)

/-! ## Claims C7 and C8 — the criticality ranking and its Pareto analysis -/

/-- The node attributes `calculate_criticality_ranking` reads directly:
their presence makes the whole ranking succeed. -/
def RankWF (g : DiGraph) : Prop :=
  ∀ p ∈ g.nodes, p.2.name.isSome ∧ p.2.tier.isSome ∧ p.2.country.isSome ∧
    p.2.component.isSome ∧ p.2.contract_value_eur_m.isSome ∧ p.2.risk_composite.isSome

lemma mapM_isSome_of_all {α β : Type} (f : α → Option β) (l : List α)
    (h : ∀ x ∈ l, (f x).isSome) : ∃ ys, l.mapM f = some ys := by
  induction l with
  | nil => exact ⟨[], rfl⟩
  | cons x xs ih =>
    obtain ⟨y, hy⟩ := Option.isSome_iff_exists.mp (h x (List.mem_cons_self x xs))
    obtain ⟨ys, hys⟩ := ih (fun z hz => h z (List.mem_cons_of_mem x hz))
    exact ⟨y :: ys, by rw [List.mapM_cons, hy, hys]; rfl⟩

lemma buildRankRow_isSome (g : DiGraph) (pmap : List ProductEntry) (p : String × NodeAttrs)
    (h : p.2.name.isSome ∧ p.2.tier.isSome ∧ p.2.country.isSome ∧ p.2.component.isSome ∧
      p.2.contract_value_eur_m.isSome ∧ p.2.risk_composite.isSome) :
    (buildRankRow g pmap p).isSome := by
  obtain ⟨h1, h2, h3, h4, h5, h6⟩ := h
  obtain ⟨nm, hnm⟩ := Option.isSome_iff_exists.mp h1
  obtain ⟨tr, htr⟩ := Option.isSome_iff_exists.mp h2
  obtain ⟨ct, hct⟩ := Option.isSome_iff_exists.mp h3
  obtain ⟨cp, hcp⟩ := Option.isSome_iff_exists.mp h4
  obtain ⟨cv, hcv⟩ := Option.isSome_iff_exists.mp h5
  unfold buildRankRow
  dsimp only
  rw [getPropagatedRisk_eq _ h6, hnm, htr, hct, hcp, hcv]
  rfl

lemma ranking_some (g : DiGraph) (pmap : List ProductEntry) (h : RankWF g) :
    ∃ rows, calculate_criticality_ranking g pmap = some rows ∧
      ∃ unsorted, g.nodes.mapM (buildRankRow g pmap) = some unsorted ∧
        rows = pandasSortDesc unsorted := by
  obtain ⟨unsorted, hu⟩ := mapM_isSome_of_all (buildRankRow g pmap) g.nodes
    (fun p hp => buildRankRow_isSome g pmap p (h p hp))
  refine ⟨pandasSortDesc unsorted, ?_, unsorted, hu, rfl⟩
  unfold calculate_criticality_ranking
  rw [hu]
  rfl

/-- The count claim C7 describes: the smallest number N of top-ranked rows
whose cumulative criticality share reaches T percent of the total (the
list's length when the shares never reach T). -/
def smallestCross (scores : List ℚ) (total T : ℚ) : ℕ :=
  go scores 0 0
where
  go : List ℚ → ℚ → ℕ → ℕ
  | [], _, k => k
  | s :: rest, acc, k =>
      if T ≤ (acc + s) / total * 100 then k + 1 else go rest (acc + s) (k + 1)

/-- C7 (amended): for each threshold T ∈ {50, 80} the Pareto analysis
reports the count of top-ranked suppliers whose cumulative criticality
share is at most T% (pandas `(cumulative_percent <= t).sum()`) — not the
smallest count whose share crosses T%; the count reported for 50% is less
than or equal to the count reported for 80%. -/
theorem pareto_counts_monotone (g : DiGraph) (pmap : List ProductEntry) (h : RankWF g) :
    (get_pareto_analysis g pmap).isSome = true ∧
    ∀ res, get_pareto_analysis g pmap = some res →
      res.pareto_50_suppliers ≤ res.pareto_80_suppliers := by
  obtain ⟨rows, hrows, -⟩ := ranking_some g pmap h
  constructor
  · unfold get_pareto_analysis
    rw [hrows]
    rfl
  · intro res hres
    unfold get_pareto_analysis at hres
    rw [hrows] at hres
    simp only [Option.bind_eq_bind, Option.some_bind, Option.pure_def,
      Option.some.injEq] at hres
    subst hres
    dsimp only
    refine List.countP_mono_left (fun x _ hx => ?_)
    simp only [decide_eq_true_eq] at hx ⊢
    linarith

/-- A single supplier carrying all of the criticality. -/
def c7G : DiGraph :=
  { nodes := [("S", { name := some "S", tier := some 1, component := some "c"
                      country := some "X", contract_value_eur_m := some 1
                      risk_composite := some 50 })]
    edges := [] }

/-- One product of revenue 10 depending on that supplier. -/
def c7Pmap : List ProductEntry := build_product_supplier_map
  [{ product_id := "P", product_name := "P", annual_revenue_eur_m := 10
     component_supplier_ids := "S" }]

/-- C7, counterexample: with a single supplier the cumulative share is
100%, so the code reports 0 suppliers for the 50% threshold, while the
smallest count crossing 50% is 1. -/
theorem pareto_count_counterexample :
    (get_pareto_analysis c7G c7Pmap).map (·.pareto_50_suppliers) = some 0 ∧
    (calculate_criticality_ranking c7G c7Pmap).map (fun rows =>
      smallestCross (rows.map (·.criticality_score))
        ((rows.map (·.criticality_score)).sum) 50) = some 1 ∧
    (0 : ℕ) ≠ 1 := by
  refine ⟨?_, ?_, by norm_num⟩
  · simp [get_pareto_analysis, calculate_criticality_ranking, c7G, c7Pmap, buildRankRow,
      getPropagatedRisk, calculate_revenue_exposure, DiGraph.descendants, DiGraph.hasPath,
      DiGraph.reachableFrom, DiGraph.reachAux, DiGraph.succs, DiGraph.nodeIds, DiGraph.attr,
      dedupKeepFirst, dedupKeepFirst.go, build_product_supplier_map, splitComma, splitComma.go,
      pandasSortDesc, List.insertionSort, List.orderedInsert, List.mapM, List.mapM.loop,
      List.contains, cumSums, cumSums.go, List.countP, List.countP.go]
    norm_num
  · simp [calculate_criticality_ranking, c7G, c7Pmap, buildRankRow, getPropagatedRisk,
      calculate_revenue_exposure, DiGraph.descendants, DiGraph.hasPath, DiGraph.reachableFrom,
      DiGraph.reachAux, DiGraph.succs, DiGraph.nodeIds, DiGraph.attr, dedupKeepFirst,
      dedupKeepFirst.go, build_product_supplier_map, splitComma, splitComma.go,
      pandasSortDesc, List.insertionSort, List.orderedInsert, List.mapM, List.mapM.loop,
      List.contains, smallestCross, smallestCross.go]

/-- C7, witness for the amended theorem at the concrete one-supplier
instance. -/
theorem pareto_counts_monotone_witness :
    (get_pareto_analysis c7G c7Pmap).isSome = true ∧
    ∀ res, get_pareto_analysis c7G c7Pmap = some res →
      res.pareto_50_suppliers ≤ res.pareto_80_suppliers :=
  pareto_counts_monotone c7G c7Pmap (by unfold RankWF; decide)

/-- Lexicographic comparison of strings (Python's `<` on supplier ids),
written over the character lists so that it evaluates in the kernel. -/
def strLtB (a b : String) : Bool :=
  go a.data b.data
where
  go : List Char → List Char → Bool
  | [], [] => false
  | [], _ :: _ => true
  | _ :: _, [] => false
  | c :: cs, d :: ds => if c.val < d.val then true else if d.val < c.val then false else go cs ds

/-- The row order claim C8 asserts of the ranking: descending by
criticality score, rows with equal scores in ascending supplier-id
order. -/
def rankingClaimOrderedB : List RankRow → Bool
  | [] => true
  | r :: rest =>
      rest.all (fun r' => (r'.criticality_score < r.criticality_score) ||
        ((r'.criticality_score == r.criticality_score) &&
          strLtB r.supplier_id r'.supplier_id)) &&
      rankingClaimOrderedB rest

/-- Two suppliers with identical criticality, inserted as S1 then S2. -/
def c8G : DiGraph :=
  { nodes := [("S1", { name := some "one", tier := some 1, component := some "c"
                       country := some "X", contract_value_eur_m := some 1
                       risk_composite := some 50 }),
              ("S2", { name := some "two", tier := some 1, component := some "c"
                       country := some "X", contract_value_eur_m := some 1
                       risk_composite := some 50 })]
    edges := [] }

/-- One product of revenue 10 listing both suppliers. -/
def c8Pmap : List ProductEntry := build_product_supplier_map
  [{ product_id := "P", product_name := "P", annual_revenue_eur_m := 10
     component_supplier_ids := "S1,S2" }]

/-- C8, counterexample: the two rows tie at criticality 5, and the pandas
descending sort (reverse of a stable ascending sort) emits S2 before S1 —
the ties are *not* in ascending supplier-id order. -/
theorem ranking_tie_order_counterexample :
    (calculate_criticality_ranking c8G c8Pmap).map (fun rows => rows.map (·.supplier_id)) =
      some ["S2", "S1"] ∧
    (calculate_criticality_ranking c8G c8Pmap).map (fun rows => rows.map (·.criticality_score)) =
      some [5, 5] ∧
    (calculate_criticality_ranking c8G c8Pmap).map rankingClaimOrderedB = some false := by
  refine ⟨?_, ?_, ?_⟩ <;>
    (simp [calculate_criticality_ranking, c8G, c8Pmap, buildRankRow, getPropagatedRisk,
      calculate_revenue_exposure, DiGraph.descendants, DiGraph.hasPath, DiGraph.reachableFrom,
      DiGraph.reachAux, DiGraph.succs, DiGraph.nodeIds, DiGraph.attr, dedupKeepFirst,
      dedupKeepFirst.go, build_product_supplier_map, splitComma, splitComma.go,
      pandasSortDesc, List.insertionSort, List.orderedInsert, List.mapM, List.mapM.loop,
      List.contains, rankingClaimOrderedB, strLtB, strLtB.go]
     <;> norm_num)

/-- C8 (amended): the ranking is the reverse of a stable ascending sort by
criticality score: rows are in non-increasing score order and are a
permutation of the per-node rows, but equal scores keep the *reverse* of
the graph insertion order — no ascending-id tie-break exists.  (The
ranking is a pure function of the graph and BOM, so recomputation returns
the identical order.) -/
theorem ranking_sorted_desc (g : DiGraph) (pmap : List ProductEntry) (h : RankWF g) :
    ∃ rows, calculate_criticality_ranking g pmap = some rows ∧
      rows.Pairwise (fun a b => b.criticality_score ≤ a.criticality_score) ∧
      ∃ unsorted, g.nodes.mapM (buildRankRow g pmap) = some unsorted ∧
        rows.Perm unsorted := by
  obtain ⟨rows, hrows, unsorted, hu, heq⟩ := ranking_some g pmap h
  subst heq
  refine ⟨_, hrows, ?_, unsorted, hu, ?_⟩
  · unfold pandasSortDesc
    rw [List.pairwise_reverse]
    haveI : IsTotal RankRow (fun a b : RankRow => a.criticality_score ≤ b.criticality_score) :=
      ⟨fun a b => le_total _ _⟩
    haveI : IsTrans RankRow (fun a b : RankRow => a.criticality_score ≤ b.criticality_score) :=
      ⟨fun _ _ _ h1 h2 => le_trans h1 h2⟩
    exact List.sorted_insertionSort _ unsorted
  · unfold pandasSortDesc
    exact (List.reverse_perm _).trans (List.perm_insertionSort _ unsorted)

/-- C8, witness for the amended theorem at the concrete two-supplier
instance. -/
theorem ranking_sorted_desc_witness :
    ∃ rows, calculate_criticality_ranking c8G c8Pmap = some rows ∧
      rows.Pairwise (fun a b => b.criticality_score ≤ a.criticality_score) ∧
      ∃ unsorted, c8G.nodes.mapM (buildRankRow c8G c8Pmap) = some unsorted ∧
        rows.Perm unsorted :=
  ranking_sorted_desc c8G c8Pmap (by unfold RankWF; decide)

/-! ## Claim C5 — Monte Carlo determinism -/

/-- A concrete draw stream (what a fixed seed determines): first draw 0.2
(below a failure probability of 0.5), second 0.25 (the loss fraction),
everything after 0.9 (above 0.5). -/
def c5Stream : ℕ → ℚ := fun k => if k = 0 then 1/5 else if k = 1 then 1/4 else 9/10

/-- A single supplier with propagated risk 50. -/
def c5G : DiGraph :=
  { nodes := [("A", { tier := some 1, region := some "R", risk_composite := some 50 })]
    edges := [] }

/-- One product of revenue 10 depending on it. -/
def c5Bom : List BomRow :=
  [{ product_id := "P", product_name := "P", annual_revenue_eur_m := 10
     component_supplier_ids := "A" }]

def c5Pmap : List ProductEntry := build_product_supplier_map c5Bom

/-- The freshly seeded RNG state. -/
def c5r0 : RngState := { draws := c5Stream, idx := 0 }

/-- One `run_simulation` call of the counterexample scenario: target "A",
30 days, 1 iteration, `single_node`. -/
def c5run (r : RngState) : Option (SimResult × RngState) :=
  run_simulation c5G c5Pmap r "A" 30 1 "single_node" ["A"]

/-- C5, counterexample: the RNG is seeded only in `__init__`, so two
successive `run_simulation` calls with identical target, duration,
iteration count, scenario type, seed, graph and BOM continue the same
stream and disagree: the first run's mean impact is 2, the second's is
0 — the summary statistics are not bit-identical. -/
theorem monte_carlo_reuse_counterexample :
    ((c5run c5r0).bind (fun st1 => (c5run st1.2).map
      (fun st2 => (st1.1.stats.mean, st2.1.stats.mean)))) = some (2, 0) ∧
    (2 : ℚ) ≠ 0 := by
  constructor
  · simp [c5run, c5r0, c5Stream, c5G, c5Pmap, c5Bom, run_simulation, get_affected_suppliers,
      runIterations, run_single_iteration, getPropagatedRisk, failure_probability,
      calculate_revenue_impact, uniformDraw, nextDraw, calculate_statistics, sortQ,
      List.insertionSort, List.orderedInsert, build_product_supplier_map, splitComma,
      splitComma.go, DiGraph.descendants, DiGraph.hasPath, DiGraph.reachableFrom,
      DiGraph.reachAux, DiGraph.succs, DiGraph.nodeIds, DiGraph.attr, DiGraph.hasNode,
      dedupKeepFirst, dedupKeepFirst.go, List.contains, List.foldlM]
    norm_num [c5Stream]
  · norm_num

/-- C5 (amended): determinism holds for *fresh* simulators: two simulator
instances constructed with the same graph, BOM and seed (draw stream)
yield bit-identical results for identical run arguments and the same
iteration order of the affected-supplier set.  (Reusing one instance
advances its RNG — the counterexample above; and the set iteration order
is fixed by string hashing, not by the run's inputs.) -/
theorem monte_carlo_fresh_deterministic (g : DiGraph) (bom : List BomRow) (stream : ℕ → ℚ)
    (target : String) (duration_days : ℚ) (iterations : ℕ) (scenKind : String)
    (order : List String) (sim1 sim2 : MCSimulator)
    (h1 : sim1 = MCSimulator.init g bom stream) (h2 : sim2 = MCSimulator.init g bom stream) :
    sim1.run target duration_days iterations scenKind order =
      sim2.run target duration_days iterations scenKind order := by
  subst h1
  subst h2
  rfl

/-- C5, witness for the amended theorem at the concrete instance. -/
theorem monte_carlo_fresh_deterministic_witness :
    (MCSimulator.init c5G c5Bom c5Stream).run "A" 30 1 "single_node" ["A"] =
      (MCSimulator.init c5G c5Bom c5Stream).run "A" 30 1 "single_node" ["A"] :=
  monte_carlo_fresh_deterministic c5G c5Bom c5Stream "A" 30 1 "single_node" ["A"]
    (MCSimulator.init c5G c5Bom c5Stream) (MCSimulator.init c5G c5Bom c5Stream) rfl rfl

/-! ## Claim C4 — SPOF detection -/

/-- What the detector needs on every node: a tier (read by the
disconnect check), a composite (the eager default of the propagated-risk
read) and the backup flag; distinct ids; edges between existing nodes. -/
def SpofWF (g : DiGraph) : Prop :=
  g.nodeIds.Nodup ∧
  (∀ p ∈ g.nodes, p.2.tier.isSome ∧ p.2.risk_composite.isSome ∧ p.2.has_backup.isSome) ∧
  (∀ e ∈ g.edges, g.hasNode e.1 = true ∧ g.hasNode e.2.1 = true)

/-- The boolean outcome of `_would_disconnect_network` (its `Option`
wrapper removed). -/
def wouldDisconnectB (g : DiGraph) (n : String) : Bool :=
  let tg := removeNode g n
  let tier1 := tierNodes tg 1
  let tier3 := tierNodes tg 3
  if tier1.isEmpty || tier3.isEmpty then false
  else !(tier3.any (fun a => tier1.any (fun b => tg.hasPath a b)))

/-- The boolean outcome of `_check_spof_conditions`: some reason is
returned exactly when one of the three conditions fires. -/
def spofCondB (g : DiGraph) (n : String) : Bool :=
  (60 < propagatedOf (g.attr n) : Bool) ||
  (g.succs n).any (fun t => (g.preds t).length == 1) ||
  wouldDisconnectB g n

lemma mem_succs (g : DiGraph) (t n : String) :
    t ∈ g.succs n ↔ ∃ w, (n, t, w) ∈ g.edges := by
  unfold DiGraph.succs
  rw [mem_dedupKeepFirst]
  simp only [List.mem_map, List.mem_filter, beq_iff_eq]
  constructor
  · rintro ⟨⟨a, b, w⟩, ⟨hmem, hb⟩, rfl⟩
    simp only at hb
    exact ⟨w, by simpa [hb] using hmem⟩
  · rintro ⟨w, hw⟩
    exact ⟨(n, t, w), ⟨hw, rfl⟩, rfl⟩

lemma removeNode_tiers (g : DiGraph) (n : String)
    (h : ∀ p ∈ g.nodes, p.2.tier.isSome) :
    ∀ p ∈ (removeNode g n).nodes, p.2.tier.isSome := by
  intro p hp
  exact h p (List.mem_filter.mp hp).1

lemma findSoleFed_eq (g : DiGraph) (hnd : g.nodeIds.Nodup)
    (htier : ∀ p ∈ g.nodes, p.2.tier.isSome) :
    ∀ ds : List String, (∀ t ∈ ds, g.hasNode t = true) →
    ∃ r, findSoleFed g ds = some r ∧
      r.isSome = ds.any (fun t => (g.preds t).length == 1) := by
  intro ds
  induction ds with
  | nil => exact fun _ => ⟨none, rfl, rfl⟩
  | cons t ts ih =>
    intro hmem
    by_cases hlen : (g.preds t).length = 1
    · have htt : (g.attr t).tier.isSome := by
        obtain ⟨a, ha⟩ := (hasNode_iff g t).mp (hmem t (List.mem_cons_self t ts))
        rw [attr_eq_of_mem g hnd t a ha]
        exact htier _ ha
      obtain ⟨tt, httv⟩ := Option.isSome_iff_exists.mp htt
      refine ⟨some (t, tt), ?_, ?_⟩
      · unfold findSoleFed
        rw [if_pos hlen, httv]
        rfl
      · simp [hlen]
    · obtain ⟨r, hr, hiff⟩ := ih (fun u hu => hmem u (List.mem_cons_of_mem t hu))
      refine ⟨r, ?_, ?_⟩
      · unfold findSoleFed
        rw [if_neg hlen]
        exact hr
      · simp [hlen, hiff]

lemma would_disconnect_eq (g : DiGraph) (n : String)
    (htier : ∀ p ∈ g.nodes, p.2.tier.isSome) :
    would_disconnect_network g n = some (wouldDisconnectB g n) := by
  unfold would_disconnect_network wouldDisconnectB
  have ht := removeNode_tiers g n htier
  dsimp only
  rw [tierListM_eq _ 1 ht, tierListM_eq _ 3 ht]
  simp only [Option.bind_eq_bind, Option.some_bind]
  split <;> rfl

lemma wouldDisconnectB_iff (g : DiGraph) (n : String) :
    wouldDisconnectB g n = true ↔
      (tierNodes (removeNode g n) 3 ≠ [] ∧ tierNodes (removeNode g n) 1 ≠ [] ∧
       ∀ a ∈ tierNodes (removeNode g n) 3, ∀ b ∈ tierNodes (removeNode g n) 1,
         (removeNode g n).hasPath a b = false) := by
  unfold wouldDisconnectB
  by_cases h1 : (tierNodes (removeNode g n) 1).isEmpty
  · simp [h1, List.isEmpty_iff.mp h1]
  · by_cases h3 : (tierNodes (removeNode g n) 3).isEmpty
    · simp [h3, List.isEmpty_iff.mp h3]
    · have h1' : tierNodes (removeNode g n) 1 ≠ [] := by
        simpa [List.isEmpty_iff] using h1
      have h3' : tierNodes (removeNode g n) 3 ≠ [] := by
        simpa [List.isEmpty_iff] using h3
      have he1 : (tierNodes (removeNode g n) 1).isEmpty = false := eq_false_of_ne_true h1
      have he3 : (tierNodes (removeNode g n) 3).isEmpty = false := eq_false_of_ne_true h3
      simp [he1, he3, h1', h3', List.any_eq_false]

lemma check_spof_eq (g : DiGraph) (hwf : SpofWF g) (n : String) (hn : g.hasNode n = true) :
    ∃ r, check_spof_conditions g n = some r ∧ r.isSome = spofCondB g n := by
  obtain ⟨hnd, hattr, hedges⟩ := hwf
  have hcomp : (g.attr n).risk_composite.isSome := by
    obtain ⟨a, ha⟩ := (hasNode_iff g n).mp hn
    rw [attr_eq_of_mem g hnd n a ha]
    exact (hattr _ ha).2.1
  have htier : ∀ p ∈ g.nodes, p.2.tier.isSome := fun p hp => (hattr p hp).1
  unfold check_spof_conditions
  rw [getPropagatedRisk_eq _ hcomp]
  by_cases hpr : 60 < propagatedOf (g.attr n)
  · refine ⟨some (.highRisk (propagatedOf (g.attr n))), ?_, ?_⟩
    · simp [hpr]
    · simp [spofCondB, hpr]
  · have hsuccs : ∀ t ∈ g.succs n, g.hasNode t = true := by
      intro t ht
      obtain ⟨w, hw⟩ := (mem_succs g t n).mp ht
      exact (hedges _ hw).2
    obtain ⟨r2, hr2, hr2iff⟩ := findSoleFed_eq g hnd htier (g.succs n) hsuccs
    cases r2 with
    | some tp =>
      refine ⟨some (.soleSupplier tp.1 tp.2), ?_, ?_⟩
      · simp [hpr, hr2]
      · have : (g.succs n).any (fun t => (g.preds t).length == 1) = true := by
          rw [← hr2iff]; rfl
        simp [spofCondB, hpr, this]
    | none =>
      refine ⟨if wouldDisconnectB g n then some .disconnect else none, ?_, ?_⟩
      · simp only [Option.bind_eq_bind, Option.some_bind]
        rw [if_neg hpr, hr2]
        simp only [Option.some_bind]
        rw [would_disconnect_eq g n htier]
        by_cases hd : wouldDisconnectB g n <;> simp [hd]
      · have hany : (g.succs n).any (fun t => (g.preds t).length == 1) = false := by
          rw [← hr2iff]; rfl
        by_cases hd : wouldDisconnectB g n <;> simp [spofCondB, hpr, hany, hd]

lemma detect_fold_eq (g : DiGraph) (hwf : SpofWF g) :
    ∀ (l : List (String × NodeAttrs)), (∀ p ∈ l, p ∈ g.nodes) → ∀ acc : List String,
    l.foldlM (fun acc p => do
      if p.2.has_backup.getD false then pure acc
      else do
        let r ← check_spof_conditions g p.1
        pure (if r.isSome then acc ++ [p.1] else acc)) acc = some
      (acc ++ (l.filter
        (fun p => !(p.2.has_backup.getD false) && spofCondB g p.1)).map Prod.fst) := by
  intro l
  induction l with
  | nil => intro _ acc; simp
  | cons p ps ih =>
    intro hsub acc
    have hn : g.hasNode p.1 = true := by
      refine (hasNode_iff g p.1).mpr ⟨p.2, ?_⟩
      simpa using hsub p (List.mem_cons_self p ps)
    have ihs := ih (fun q hq => hsub q (List.mem_cons_of_mem p hq))
    rw [List.foldlM_cons]
    simp only [Option.bind_eq_bind, Option.pure_def, Option.some_bind] at ihs ⊢
    by_cases hb : p.2.has_backup.getD false
    · rw [if_pos hb]
      simp only [Option.some_bind]
      rw [ihs acc]
      simp [List.filter_cons, hb]
    · obtain ⟨r, hr, hris⟩ := check_spof_eq g hwf p.1 hn
      rw [if_neg hb]
      rw [hr]
      simp only [Option.some_bind]
      cases hri : r.isSome
      · rw [if_neg (by simp [hri])]
        rw [ihs acc]
        have : (!(p.2.has_backup.getD false) && spofCondB g p.1) = false := by
          rw [← hris, hri, Bool.and_false]
        simp [List.filter_cons, this]
      · rw [if_pos (rfl : true = true)]
        rw [ihs (acc ++ [p.1])]
        have hbf : (p.2.has_backup.getD false) = false := eq_false_of_ne_true hb
        have : (!(p.2.has_backup.getD false) && spofCondB g p.1) = true := by
          rw [← hris, hri, hbf]
          rfl
        simp [List.filter_cons, this]

lemma find_flag (spofs : List String) (n : String) :
    ∀ l : List (String × NodeAttrs), l.any (fun p => p.1 == n) = true →
    ((((l.map (fun p : String × NodeAttrs =>
        (p.1, { p.2 with is_spof := some (spofs.contains p.1) }))).find?
      (fun p : String × NodeAttrs => p.1 == n)).map Prod.snd).getD {}).is_spof =
      some (spofs.contains n) := by
  intro l
  induction l with
  | nil => intro h; simp at h
  | cons p ps ih =>
    intro h
    by_cases hp : p.1 = n
    · rw [List.map_cons, List.find?_cons_of_pos _ (by simpa using hp)]
      simp [hp]
    · have hbne : (p.1 == n) = false := by simpa using hp
      rw [List.map_cons, List.find?_cons_of_neg _ (by simp [hbne])]
      exact ih (by simpa [hbne] using h)

lemma contains_filter_map_fst (l : List (String × NodeAttrs))
    (hnd : (l.map Prod.fst).Nodup) (q : (String × NodeAttrs) → Bool)
    (p : String × NodeAttrs) (hp : p ∈ l) :
    ((l.filter q).map Prod.fst).contains p.1 = q p := by
  have hmem : p.1 ∈ (l.filter q).map Prod.fst ↔ q p = true := by
    constructor
    · intro h
      obtain ⟨p', hp', hid⟩ := List.mem_map.mp h
      have hp'l := (List.mem_filter.mp hp').1
      have heq : p' = p := List.inj_on_of_nodup_map hnd hp'l hp hid
      exact heq ▸ (List.mem_filter.mp hp').2
    · intro hq
      exact List.mem_map.mpr ⟨p, List.mem_filter.mpr ⟨hp, hq⟩, rfl⟩
  cases hb : q p
  · have hnot : p.1 ∉ (l.filter q).map Prod.fst := by
      intro h
      have := hmem.mp h
      rw [hb] at this
      cases this
    simp [List.contains, List.elem_eq_mem, hnot]
  · simp [List.contains, List.elem_eq_mem, hmem.mpr hb]

/-- The list of SPOF ids the detector's fold produces. -/
def spofList (g : DiGraph) : List String :=
  (g.nodes.filter (fun p => !(p.2.has_backup.getD false) && spofCondB g p.1)).map Prod.fst

/-- The graph the detector returns: every node annotated with `is_spof`. -/
def flaggedGraph (g : DiGraph) : DiGraph :=
  { g with nodes := g.nodes.map (fun p : String × NodeAttrs => (p.1, { p.2 with is_spof := some ((spofList g).contains p.1) })) }

/-- C4 (amended): a node with `has_backup = true` is never flagged; a node
with `has_backup = false` is flagged exactly when (a) its propagated risk
exceeds 60, or (b) some direct downstream node has in-degree exactly one,
or (c) after its removal at least one tier-3 node and at least one tier-1
node remain and no path runs from any remaining tier-3 node to any
remaining tier-1 node.  (The original claim's condition (c) lacked the
remaining-nodes requirement: the code answers "no disconnect" when either
side is empty.) -/
theorem detect_spofs_iff (g : DiGraph) (hwf : SpofWF g) :
    ∃ g' spofs, detect_all_spofs g = some (g', spofs) ∧
      ∀ p ∈ g.nodes,
        (p.2.has_backup = some true → (g'.attr p.1).is_spof = some false) ∧
        ((g'.attr p.1).is_spof = some true ↔
          (p.2.has_backup = some false ∧
            (60 < propagatedOf p.2 ∨
             (∃ t ∈ g.succs p.1, (g.preds t).length = 1) ∨
             (tierNodes (removeNode g p.1) 3 ≠ [] ∧ tierNodes (removeNode g p.1) 1 ≠ [] ∧
              ∀ a ∈ tierNodes (removeNode g p.1) 3, ∀ b ∈ tierNodes (removeNode g p.1) 1,
                (removeNode g p.1).hasPath a b = false)))) := by
  obtain ⟨hnd, hattr, hedges⟩ := hwf
  have hdet : detect_all_spofs g = some (flaggedGraph g, spofList g) := by
    unfold detect_all_spofs
    rw [detect_fold_eq g ⟨hnd, hattr, hedges⟩ g.nodes (fun p hp => hp) []]
    simp only [Option.bind_eq_bind, Option.pure_def, Option.some_bind, List.nil_append]
    rfl
  refine ⟨_, _, hdet, ?_⟩
  intro p hp
  have hn : g.hasNode p.1 = true := (hasNode_iff g p.1).mpr ⟨p.2, by simpa using hp⟩
  have hflag : (((flaggedGraph g).attr p.1)).is_spof = some ((spofList g).contains p.1) :=
    find_flag (spofList g) p.1 g.nodes hn
  have hcontains : (spofList g).contains p.1 =
      (!(p.2.has_backup.getD false) && spofCondB g p.1) :=
    contains_filter_map_fst g.nodes hnd
      (fun p => !(p.2.has_backup.getD false) && spofCondB g p.1) p hp
  obtain ⟨hbt, hbc, hbb⟩ := hattr p hp
  obtain ⟨b, hb⟩ := Option.isSome_iff_exists.mp hbb
  have hattr_eq : g.attr p.1 = p.2 := attr_eq_of_mem g hnd p.1 p.2 (by simpa using hp)
  rw [hflag, hcontains]
  constructor
  · intro hbtrue
    rw [hb] at hbtrue
    have hbv : b = true := by injection hbtrue
    subst hbv
    simp [hb]
  · rw [hb]
    cases b
    · simp only [Option.getD_some, Bool.not_false, Bool.true_and, Option.some.injEq,
        true_and]
      rw [show spofCondB g p.1 = ((60 < propagatedOf p.2 : Bool) ||
          (g.succs p.1).any (fun t => (g.preds t).length == 1) ||
          wouldDisconnectB g p.1) from by rw [spofCondB, hattr_eq]]
      simp only [Bool.or_eq_true, decide_eq_true_eq, List.any_eq_true, beq_iff_eq,
        wouldDisconnectB_iff]
      constructor
      · rintro ((h | h) | h)
        · exact Or.inl h
        · exact Or.inr (Or.inl h)
        · exact Or.inr (Or.inr h)
      · rintro (h | h | h)
        · exact Or.inl (Or.inl h)
        · exact Or.inl (Or.inr h)
        · exact Or.inr h
    · simp

/-- Condition (c) exactly as the original claim words it, vacuously true
when no tier-3 or no tier-1 node remains: after removing the node, no path
exists from any remaining tier-3 node to any remaining tier-1 node. -/
def claimDisconnectB (g : DiGraph) (n : String) : Bool :=
  (tierNodes (removeNode g n) 3).all (fun a =>
    (tierNodes (removeNode g n) 1).all (fun b => !((removeNode g n).hasPath a b)))

/-- A lone tier-3 supplier without backup and with moderate risk. -/
def c4G : DiGraph :=
  { nodes := [("A", { tier := some 3, has_backup := some false, risk_composite := some 50 })]
    edges := [] }

/-- C4, counterexample: the lone node "A" has no backup, risk 50 (≤ 60), no
downstream, and after its removal no tier-3 → tier-1 path exists (there are
no nodes at all), so the claim's condition (c) holds vacuously and it
predicts `is_spof = true`; the code answers `is_spof = false` because its
disconnect check returns False when no tier-1/tier-3 nodes remain. -/
theorem spof_vacuous_disconnect_counterexample :
    (detect_all_spofs c4G).map (fun r => (r.1.attr "A").is_spof) = some (some false) ∧
    (c4G.attr "A").has_backup = some false ∧
    claimDisconnectB c4G "A" = true ∧
    ¬ (60 < propagatedOf (c4G.attr "A")) := by
  refine ⟨?_, by decide, by decide, ?_⟩
  · simp [c4G, detect_all_spofs, check_spof_conditions, getPropagatedRisk, findSoleFed,
      would_disconnect_network, tierListM, tierListM.go, removeNode, DiGraph.succs,
      DiGraph.preds, DiGraph.attr, DiGraph.hasNode, dedupKeepFirst, dedupKeepFirst.go,
      List.foldlM, List.contains]
    norm_num
  · norm_num [propagatedOf, DiGraph.attr, c4G]

/-- C4, witness for the amended theorem at the concrete one-node
instance. -/
theorem detect_spofs_iff_witness :
    ∃ g' spofs, detect_all_spofs c4G = some (g', spofs) ∧
      ∀ p ∈ c4G.nodes,
        (p.2.has_backup = some true → (g'.attr p.1).is_spof = some false) ∧
        ((g'.attr p.1).is_spof = some true ↔
          (p.2.has_backup = some false ∧
            (60 < propagatedOf p.2 ∨
             (∃ t ∈ c4G.succs p.1, (c4G.preds t).length = 1) ∨
             (tierNodes (removeNode c4G p.1) 3 ≠ [] ∧ tierNodes (removeNode c4G p.1) 1 ≠ [] ∧
              ∀ a ∈ tierNodes (removeNode c4G p.1) 3,
                ∀ b ∈ tierNodes (removeNode c4G p.1) 1,
                  (removeNode c4G p.1).hasPath a b = false)))) :=
  detect_spofs_iff c4G (by unfold SpofWF; decide)

end SupplierShield
